import Mathlib

/-!
Verification development for the `ez-order` notify endpoint
(`functions/api/notify.ts`).

Modelling conventions (shallow embedding):
* JavaScript strings are modelled as `List Char` (`JStr`); `.length`,
  `.trim()`, `.slice`, `.split`, `.toLowerCase()` and the regexes used by
  the code become the corresponding list functions.  All patterns the code
  tests are ASCII-only, so the UTF-16 length of a matching string equals
  its character count.
* Byte strings are `List Nat` with every element `< 256`.
* The platform built-ins `btoa`/`atob` are modelled concretely as standard
  base64 over byte lists (forgiving decode, without whitespace stripping);
  the repository's `bytesToBase64Url`/`base64UrlToBytes` are translated on
  top of them exactly as in the source.
* `TextEncoder.encode` is modelled concretely as UTF-8 (`utf8Encode`).
* `JSON.parse ∘ TextDecoder.decode` is a parameter `jp : List Nat → Option Json`
  of the functions that use it; the round-trip fact the platform guarantees
  is taken as a hypothesis exactly at the instances a theorem needs.
  `JSON.stringify` of the auth payload is modelled concretely
  (`stringifyPayload`); the payload's string fields match
  `^[A-Za-z0-9_-]+$` wherever it is applied, so no JSON escaping arises.
  JSON numbers are modelled as integers (the code floors `exp` anyway).
* HMAC-SHA256 is a parameter `hmac : secret → message → List Nat`;
  `crypto.subtle.verify` for HMAC is recompute-and-compare, which is how
  `verifyEncodedPayloadSignature` is translated.  SHA-256 for the client
  binding is likewise a parameter.
* `Date.now()` is an explicit `now : Int` argument (one value per call,
  a single value per request for the request handler).
* The global `Map`s become explicit association-list states threaded
  through the functions; `Map.set` updates in place or appends, matching
  JS insertion-order semantics.
-/

set_option autoImplicit false

namespace EzOrder

/-- JavaScript strings, modelled as lists of characters. -/
abbrev JStr := List Char

/-- Coerce a Lean string literal to the `JStr` model. -/
def jstr (s : String) : JStr := s.data

/-- The whitespace class of JavaScript `trim` (the ASCII part; the inputs
the development evaluates contain no exotic whitespace). -/
def isJsWs (c : Char) : Bool :=
  c = ' ' || c = '\t' || c = '\n' || c = '\r' || c = '\x0b' || c = '\x0c'

/-- JavaScript `String.prototype.trim`. -/
def trimJ (s : JStr) : JStr :=
  ((s.dropWhile isJsWs).reverse.dropWhile isJsWs).reverse

/-- JavaScript `String.prototype.toLowerCase` (ASCII case mapping, which is
all the code compares against). -/
def lowerJ (s : JStr) : JStr := s.map Char.toLower

/-- JavaScript `String.prototype.slice(0, n)`. -/
def takeJ (n : Nat) (s : JStr) : JStr := s.take n

/-- JavaScript `String.prototype.split(sep)` for a one-character separator;
always returns a non-empty list of segments. -/
def splitOnChar (sep : Char) : JStr → List JStr
  | [] => [[]]
  | c :: rest =>
    match splitOnChar sep rest with
    | [] => [[]]
    | h :: t => if c = sep then [] :: h :: t else (c :: h) :: t

/-- JavaScript `String.prototype.includes`. -/
def includesB (hay needle : JStr) : Bool :=
  hay.tails.any (fun t => needle.isPrefixOf t)

/-- ASCII decimal digit test. -/
def isDigitCh (c : Char) : Bool := 48 ≤ c.toNat && c.toNat ≤ 57

/-- Value of a list of decimal digits. -/
def digitsToNat (l : JStr) : Nat :=
  l.foldl (fun acc c => acc * 10 + (c.toNat - 48)) 0

/-- `Number.parseInt(s, 10)`: skip leading whitespace, optional sign,
longest digit run; `NaN` (here `none`) when no digits follow. -/
def parseIntJS (s : JStr) : Option Int :=
  let s1 := s.dropWhile isJsWs
  let signAndRest : Int × JStr :=
    match s1 with
    | '-' :: r => (-1, r)
    | '+' :: r => (1, r)
    | _ => (1, s1)
  let digits := signAndRest.2.takeWhile isDigitCh
  if digits.isEmpty then none
  else some (signAndRest.1 * (digitsToNat digits : Int))

/-! ## Base64 (the platform's `btoa`/`atob`) -/

/-- Character of the standard base64 alphabet at a sextet value. -/
def sextetToChar (i : Nat) : Char :=
  if i < 26 then Char.ofNat (65 + i)
  else if i < 52 then Char.ofNat (97 + (i - 26))
  else if i < 62 then Char.ofNat (48 + (i - 52))
  else if i = 62 then '+'
  else '/'

/-- Sextet value of a standard base64 alphabet character. -/
def charToSextet (c : Char) : Option Nat :=
  let n := c.toNat
  if 65 ≤ n ∧ n ≤ 90 then some (n - 65)
  else if 97 ≤ n ∧ n ≤ 122 then some (26 + (n - 97))
  else if 48 ≤ n ∧ n ≤ 57 then some (52 + (n - 48))
  else if n = 43 then some 62
  else if n = 47 then some 63
  else none

/-- The platform `btoa` on byte lists: standard base64 with `=` padding. -/
def btoa : List Nat → List Char
  | [] => []
  | [a] => [sextetToChar (a / 4), sextetToChar (a % 4 * 16), '=', '=']
  | [a, b] =>
    [sextetToChar (a / 4), sextetToChar (a % 4 * 16 + b / 16),
     sextetToChar (b % 16 * 4), '=']
  | a :: b :: c :: rest =>
    sextetToChar (a / 4) :: sextetToChar (a % 4 * 16 + b / 16) ::
    sextetToChar (b % 16 * 4 + c / 64) :: sextetToChar (c % 64) :: btoa rest

/-- Map base64 characters to sextets, failing on any foreign character. -/
def charsToSextets : List Char → Option (List Nat)
  | [] => some []
  | c :: rest =>
    match charToSextet c, charsToSextets rest with
    | some s, some t => some (s :: t)
    | _, _ => none

/-- Reassemble bytes from sextets (forgiving: leftover bits of a final
partial group are discarded, as browsers do). -/
def sextetsToBytes : List Nat → Option (List Nat)
  | [] => some []
  | [_] => none
  | [a, b] => some [a * 4 + b / 16]
  | [a, b, c] => some [a * 4 + b / 16, b % 16 * 16 + c / 4]
  | a :: b :: c :: d :: rest =>
    match sextetsToBytes rest with
    | some t => some ((a * 4 + b / 16) :: (b % 16 * 16 + c / 4) :: (c % 4 * 64 + d) :: t)
    | none => none

/-- Remove up to two trailing `=` characters (the forgiving-base64 rule). -/
def dropUpTo2Eq (s : List Char) : List Char :=
  match s.reverse with
  | '=' :: '=' :: rest => rest.reverse
  | '=' :: rest => rest.reverse
  | _ => s

/-- The platform `atob` (forgiving base64 decode, modulo whitespace
stripping, which never arises for the code's inputs). -/
def atob (s : List Char) : Option (List Nat) :=
  let core := if s.length % 4 = 0 then dropUpTo2Eq s else s
  if core.length % 4 = 1 then none
  else
    match charsToSextets core with
    | none => none
    | some sx => sextetsToBytes sx

/-- `bytesToBase64Url` from the source: `btoa`, then `+`→`-`, `/`→`_`,
then strip all trailing `=`. -/
def bytesToBase64Url (bytes : List Nat) : JStr :=
  ((((btoa bytes).map (fun c => if c = '+' then '-' else c)).map
      (fun c => if c = '/' then '_' else c)).reverse.dropWhile
      (fun c => c = '=')).reverse

/-- `base64UrlToBytes` from the source: `-`→`+`, `_`→`/`, re-pad, `atob`;
`null` (here `none`) when `atob` throws. -/
def base64UrlToBytes (value : JStr) : Option (List Nat) :=
  let normalized :=
    (value.map (fun c => if c = '-' then '+' else c)).map
      (fun c => if c = '_' then '/' else c)
  let padding := List.replicate ((4 - normalized.length % 4) % 4) '='
  atob (normalized ++ padding)

/-! ### Round trip of the repository's base64url codec -/

/-- Composite of the two character replacements of `bytesToBase64Url`. -/
def b64UrlChar (c : Char) : Char :=
  if c = '+' then '-' else if c = '/' then '_' else c

/-- Composite of the two character replacements of `base64UrlToBytes`. -/
def b64UnurlChar (c : Char) : Char :=
  if c = '-' then '+' else if c = '_' then '/' else c

/-! ## UTF-8 (the platform's `TextEncoder.encode`) -/

/-- UTF-8 bytes of one code point. -/
def utf8EncodeChar (c : Char) : List Nat :=
  let n := c.toNat
  if n < 128 then [n]
  else if n < 2048 then [192 + n / 64, 128 + n % 64]
  else if n < 65536 then [224 + n / 4096, 128 + n / 64 % 64, 128 + n % 64]
  else [240 + n / 262144, 128 + n / 4096 % 64, 128 + n / 64 % 64, 128 + n % 64]

/-- `TextEncoder.encode`: UTF-8 bytes of a string. -/
def utf8Encode (s : JStr) : List Nat := (s.map utf8EncodeChar).flatten

/-! ## Splitting on a separator -/

/-! ## Token component pattern and field limits -/

/-- One character of `TOKEN_COMPONENT_PATTERN` = `/^[A-Za-z0-9_-]+$/`. -/
def tokenComponentChar (c : Char) : Bool :=
  decide ((65 ≤ c.toNat ∧ c.toNat ≤ 90) ∨ (97 ≤ c.toNat ∧ c.toNat ≤ 122) ∨
    (48 ≤ c.toNat ∧ c.toNat ≤ 57) ∨ c.toNat = 95 ∨ c.toNat = 45)

def MAX_LOCATION_TOKEN_LENGTH : Nat := 80
def MAX_AUTH_TOKEN_LENGTH : Nat := 2048
def MAX_JSON_BODY_BYTES : Nat := 8192
def MAX_TITLE_LENGTH : Nat := 100
def MAX_MESSAGE_LENGTH : Nat := 1024
def MAX_SESSION_ID_LENGTH : Nat := 128
def MAX_BINDING_LENGTH : Nat := 128
def MAX_USED_AUTH_TOKEN_IDS : Nat := 10000

/-- `isValidLocationToken` from the source: non-empty, at most 80 chars,
all matching `[A-Za-z0-9_-]`. -/
def isValidLocationToken (v : JStr) : Bool :=
  decide (0 < v.length) && decide (v.length ≤ MAX_LOCATION_TOKEN_LENGTH) &&
    v.all tokenComponentChar

/-- `isSafeTokenComponent` from the source. -/
def isSafeTokenComponent (v : JStr) (maxLength : Nat) : Bool :=
  decide (0 < v.length) && decide (v.length ≤ maxLength) && v.all tokenComponentChar

/-! ## JSON values (output of the platform's `JSON.parse`) -/

/-- JSON values; numbers are modelled as integers (all numbers handled by
the code are integral, and `parseNotifyAuthToken` floors `exp` anyway). -/
inductive Json where
  | null
  | bool (b : Bool)
  | num (n : Int)
  | str (s : JStr)
  | arr (elems : List Json)
  | obj (fields : List (JStr × Json))

/-- `isObjectRecord` from the source: a non-null non-array object. -/
def isObjectRecord : Json → Bool
  | .obj _ => true
  | _ => false

/-- Property access `value.key` on a parsed JSON value (absent keys give
`undefined`, here `none`). -/
def Json.getField (j : Json) (k : JStr) : Option Json :=
  match j with
  | .obj fields => (fields.find? (fun kv => kv.1 == k)).map (fun kv => kv.2)
  | _ => none

/-! ## The auth token payload -/

/-- `NotifyAuthPayload` from the source; the constant version field `v : 1`
is kept implicit (it is always `1`). -/
structure NotifyAuthPayload where
  loc : JStr
  exp : Int
  sid : JStr
  jti : JStr
  bind : JStr
deriving DecidableEq

/-- `JSON.stringify` for the payload object, with the source's key order;
valid payload fields match `[A-Za-z0-9_-]+` so no escaping arises. -/
def stringifyPayload (p : NotifyAuthPayload) : JStr :=
  jstr "\x7b\"v\":1,\"loc\":\"" ++ p.loc ++ jstr "\",\"exp\":" ++
    (toString p.exp).data ++ jstr ",\"sid\":\"" ++ p.sid ++ jstr "\",\"jti\":\"" ++
    p.jti ++ jstr "\",\"bind\":\"" ++ p.bind ++ jstr "\"\x7d"

/-- The JSON value that `JSON.parse` produces from the stringified payload. -/
def payloadToJson (p : NotifyAuthPayload) : Json :=
  .obj [(jstr "v", .num 1), (jstr "loc", .str p.loc), (jstr "exp", .num p.exp),
    (jstr "sid", .str p.sid), (jstr "jti", .str p.jti), (jstr "bind", .str p.bind)]

/-! ## Environment and configuration -/

/-- The subset of `Env` used by the modelled functions; `undefined`
environment variables are `none`. -/
structure EnvM where
  pushoverAppToken : JStr
  pushoverUserKey : JStr
  allowedOrigins : Option JStr := none
  notifyRateLimitPerMinute : Option JStr := none
  pushoverTimeoutMs : Option JStr := none
  notifySigningSecret : Option JStr := none
  notifyAuthTtlSeconds : Option JStr := none
  notifyAllowedLocationTokens : Option JStr := none

def DEFAULT_RATE_LIMIT_PER_MINUTE : Int := 8
def RATE_LIMIT_WINDOW_MS : Int := 60000
def DEFAULT_NOTIFY_AUTH_TTL_SECONDS : Int := 600
def MIN_NOTIFY_AUTH_TTL_SECONDS : Int := 60
def MAX_NOTIFY_AUTH_TTL_SECONDS : Int := 3600

/-- `parseBoundedInteger` from the source. -/
def parseBoundedInteger (input : Option JStr) (fallback mn mx : Int) : Int :=
  match parseIntJS (input.getD []) with
  | none => fallback
  | some parsed => min mx (max mn parsed)

/-- `getRateLimitPerMinute` from the source. -/
def getRateLimitPerMinute (env : EnvM) : Int :=
  parseBoundedInteger env.notifyRateLimitPerMinute DEFAULT_RATE_LIMIT_PER_MINUTE 1 60

/-- `getNotifyAuthTtlSeconds` from the source. -/
def getNotifyAuthTtlSeconds (env : EnvM) : Int :=
  parseBoundedInteger env.notifyAuthTtlSeconds DEFAULT_NOTIFY_AUTH_TTL_SECONDS
    MIN_NOTIFY_AUTH_TTL_SECONDS MAX_NOTIFY_AUTH_TTL_SECONDS

/-- `getSigningSecret` from the source: trimmed explicit secret when truthy,
otherwise derived from the Pushover credentials, otherwise `null`. -/
def getSigningSecret (env : EnvM) : Option JStr :=
  let explicitSecret := trimJ (env.notifySigningSecret.getD [])
  if explicitSecret ≠ [] then some explicitSecret
  else if env.pushoverAppToken ≠ [] ∧ env.pushoverUserKey ≠ [] then
    some (env.pushoverAppToken ++ jstr ":" ++ env.pushoverUserKey)
  else none

/-! ## Signing (HMAC-SHA256 via `crypto.subtle`, as an abstract function) -/

/-- `signEncodedPayload`: base64url of the HMAC over the encoded payload.
`hmac secret message` stands for `crypto.subtle.sign("HMAC", key(secret),
utf8(message))`. -/
def signEncodedPayload (hmac : JStr → JStr → List Nat)
    (payloadEncoded secret : JStr) : JStr :=
  bytesToBase64Url (hmac secret payloadEncoded)

/-- `verifyEncodedPayloadSignature`: decode the signature and compare with
the recomputed MAC (`crypto.subtle.verify` for HMAC is
recompute-and-compare). -/
def verifyEncodedPayloadSignature (hmac : JStr → JStr → List Nat)
    (payloadEncoded signatureEncoded secret : JStr) : Bool :=
  match base64UrlToBytes signatureEncoded with
  | none => false
  | some signatureBytes => signatureBytes == hmac secret payloadEncoded

/-! ## The token service -/

/-- Result of `parseNotifyAuthToken`. -/
structure ParsedToken where
  payloadEncoded : JStr
  signatureEncoded : JStr
  payload : NotifyAuthPayload
deriving DecidableEq

/-- `parseNotifyAuthToken` from the source; `jp` is
`JSON.parse ∘ TextDecoder.decode` (returning `none` when `JSON.parse`
throws). -/
def parseNotifyAuthToken (jp : List Nat → Option Json) (authToken : JStr) :
    Option ParsedToken :=
  match splitOnChar '.' authToken with
  | [payloadEncoded, signatureEncoded] =>
    if payloadEncoded.isEmpty || signatureEncoded.isEmpty then none
    else
      match base64UrlToBytes payloadEncoded with
      | none => none
      | some payloadBytes =>
        match jp payloadBytes with
        | none => none
        | some payloadValue =>
          if isObjectRecord payloadValue = false then none
          else
            match payloadValue.getField (jstr "v"), payloadValue.getField (jstr "loc"),
              payloadValue.getField (jstr "exp"), payloadValue.getField (jstr "sid"),
              payloadValue.getField (jstr "jti"), payloadValue.getField (jstr "bind") with
            | some (.num 1), some (.str loc), some (.num exp), some (.str sid),
              some (.str jti), some (.str bind) =>
              if isValidLocationToken loc &&
                  isSafeTokenComponent sid MAX_SESSION_ID_LENGTH &&
                  isSafeTokenComponent jti MAX_SESSION_ID_LENGTH &&
                  isSafeTokenComponent bind MAX_BINDING_LENGTH then
                some ⟨payloadEncoded, signatureEncoded, ⟨loc, exp, sid, jti, bind⟩⟩
              else none
            | _, _, _, _, _, _ => none
  | _ => none

/-- `issueNotifyAuthToken` from the source; `rnd` is the 18-byte output of
`crypto.getRandomValues` feeding `randomBase64Url`, `now` is `Date.now()`. -/
def issueNotifyAuthToken (hmac : JStr → JStr → List Nat) (rnd : List Nat)
    (now : Int) (locationToken sessionId clientBinding : JStr) (env : EnvM) :
    Option (JStr × Int) :=
  match getSigningSecret env with
  | none => none
  | some signingSecret =>
    let expiresAtMs := now + getNotifyAuthTtlSeconds env * 1000
    let payload : NotifyAuthPayload :=
      ⟨locationToken, expiresAtMs, sessionId, bytesToBase64Url rnd, clientBinding⟩
    let payloadEncoded := bytesToBase64Url (utf8Encode (stringifyPayload payload))
    let signatureEncoded := signEncodedPayload hmac payloadEncoded signingSecret
    some (payloadEncoded ++ '.' :: signatureEncoded, expiresAtMs)

/-- Result shape of `verifyNotifyAuthToken`:
`{ok:true, payload}` or `{ok:false}`. -/
inductive VerifyResult where
  | ok (payload : NotifyAuthPayload)
  | fail
deriving DecidableEq

/-- `verifyNotifyAuthToken` from the source; checks in source order:
secret, parse, location, session, binding, expiry, signature. -/
def verifyNotifyAuthToken (jp : List Nat → Option Json)
    (hmac : JStr → JStr → List Nat) (now : Int)
    (authToken expectedLocationToken expectedSessionId expectedBinding : JStr)
    (env : EnvM) : VerifyResult :=
  match getSigningSecret env with
  | none => .fail
  | some signingSecret =>
    match parseNotifyAuthToken jp authToken with
    | none => .fail
    | some parsedToken =>
      if parsedToken.payload.loc ≠ expectedLocationToken then .fail
      else if parsedToken.payload.sid ≠ expectedSessionId then .fail
      else if parsedToken.payload.bind ≠ expectedBinding then .fail
      else if parsedToken.payload.exp ≤ now then .fail
      else if verifyEncodedPayloadSignature hmac parsedToken.payloadEncoded
          parsedToken.signatureEncoded signingSecret = false then .fail
      else .ok parsedToken.payload

/-- The payload object constructed by `issueNotifyAuthToken` (its `jti` is
the base64url of the random bytes). -/
def issuedPayload (rnd : List Nat) (now : Int) (locationToken sessionId clientBinding : JStr)
    (env : EnvM) : NotifyAuthPayload :=
  ⟨locationToken, now + getNotifyAuthTtlSeconds env * 1000, sessionId,
    bytesToBase64Url rnd, clientBinding⟩

/-! ## Association-list model of the global `Map`s -/

/-- `Map.get`. -/
def alGet {α : Type} (m : List (JStr × α)) (k : JStr) : Option α :=
  (m.find? (fun kv => kv.1 == k)).map (fun kv => kv.2)

/-- `Map.set`: replaces in place (JS keeps the insertion position) or
appends. -/
def alSet {α : Type} (m : List (JStr × α)) (k : JStr) (v : α) : List (JStr × α) :=
  match m with
  | [] => [(k, v)]
  | (k', v') :: rest => if k' == k then (k, v) :: rest else (k', v') :: alSet rest k v

/-- `Map.delete`. -/
def alDelete {α : Type} (m : List (JStr × α)) (k : JStr) : List (JStr × α) :=
  m.filter (fun kv => !(kv.1 == k))

/-- `Map.size`. -/
def alSize {α : Type} (m : List (JStr × α)) : Nat := m.length

/-! ## Rate limiter -/

/-- A rate-limit bucket: request count and window start. -/
structure Bucket where
  count : Int
  startedAtMs : Int
deriving DecidableEq

/-- The `rateLimitBuckets` map. -/
abbrev RLState := List (JStr × Bucket)

/-- `isRateLimited` from the source, with the global map and `Date.now()`
made explicit; returns the decision and the updated map. -/
def isRateLimited (clientIp : JStr) (limitPerMinute : Int) (now : Int)
    (st : RLState) : Bool × RLState :=
  match alGet st clientIp with
  | none => (false, alSet st clientIp ⟨1, now⟩)
  | some bucket =>
    if now - bucket.startedAtMs ≥ RATE_LIMIT_WINDOW_MS then
      (false, alSet st clientIp ⟨1, now⟩)
    else if bucket.count ≥ limitPerMinute then (true, st)
    else
      let st1 := alSet st clientIp ⟨bucket.count + 1, bucket.startedAtMs⟩
      let st2 :=
        if alSize st1 > 5000 then
          st1.filter (fun kv => !(decide (now - kv.2.startedAtMs ≥ RATE_LIMIT_WINDOW_MS)))
        else st1
      (false, st2)

/-- Run a sequence of `isRateLimited` calls for one client, collecting the
decisions. -/
def rlRun (clientIp : JStr) (limitPerMinute : Int) :
    List Int → RLState → List Bool × RLState
  | [], st => ([], st)
  | t :: ts, st =>
    let r := isRateLimited clientIp limitPerMinute t st
    let rest := rlRun clientIp limitPerMinute ts r.2
    (r.1 :: rest.1, rest.2)

/-! ## Replay guard -/

/-- The `usedAuthTokenIds` map: token id to its `expiresAtMs`. -/
abbrev UsedIds := List (JStr × Int)

/-- `cleanupUsedAuthTokenIds` from the source. -/
def cleanupUsedAuthTokenIds (now : Int) (m : UsedIds) : UsedIds :=
  m.filter (fun kv => !(decide (kv.2 ≤ now)))

/-- `isAuthTokenReplay` from the source (including the `!expiresAtMs`
falsiness check, under which a stored value `0` counts as absent); returns
the decision and the updated map (the auto-evict path deletes). -/
def isAuthTokenReplay (tokenId : JStr) (now : Int) (m : UsedIds) : Bool × UsedIds :=
  match alGet m tokenId with
  | none => (false, m)
  | some expiresAtMs =>
    if expiresAtMs = 0 then (false, m)
    else if expiresAtMs ≤ now then (false, alDelete m tokenId)
    else (true, m)

/-- `rememberUsedAuthToken` from the source. -/
def rememberUsedAuthToken (tokenId : JStr) (expiresAtMs : Int) (now : Int)
    (m : UsedIds) : UsedIds :=
  if expiresAtMs ≤ now then m
  else
    let m1 := alSet m tokenId expiresAtMs
    if alSize m1 > MAX_USED_AUTH_TOKEN_IDS then cleanupUsedAuthTokenIds now m1 else m1

/-- One call against the replay guard (for stating interleaving claims). -/
inductive GuardOp where
  | rem (tokenId : JStr) (expiresAtMs : Int) (now : Int)
  | chk (tokenId : JStr) (now : Int)
  | cln (now : Int)
deriving DecidableEq

/-- State effect of one guard call. -/
def applyGuardOp (op : GuardOp) (m : UsedIds) : UsedIds :=
  match op with
  | .rem tokenId expiresAtMs now => rememberUsedAuthToken tokenId expiresAtMs now m
  | .chk tokenId now => (isAuthTokenReplay tokenId now m).2
  | .cln now => cleanupUsedAuthTokenIds now m

/-- The `Date.now()` of a guard call. -/
def GuardOp.now : GuardOp → Int
  | .rem _ _ n => n
  | .chk _ n => n
  | .cln n => n

/-- State effect of a sequence of guard calls. -/
def runGuard (ops : List GuardOp) (m : UsedIds) : UsedIds :=
  match ops with
  | [] => m
  | op :: rest => runGuard rest (applyGuardOp op m)

/-! ## Requests and the admission pipeline

External-platform pieces are explicit arguments: `uo` is
`(s) => new URL(s).origin` (`none` when the constructor throws), `dUC` is
`decodeURIComponent` (`none` when it throws), `jp` is
`JSON.parse ∘ TextDecoder.decode`, `sha` is SHA-256 of the UTF-8 bytes of a
string.  The body is the chunk sequence delivered by the stream reader. -/

/-- The parts of a `Request` the handler reads.  `urlOrigin` is the
platform-computed `new URL(request.url).origin`. -/
structure ReqM where
  originHeader : Option JStr := none
  refererHeader : Option JStr := none
  secFetchSite : Option JStr := none
  secFetchMode : Option JStr := none
  cfConnectingIp : Option JStr := none
  xForwardedFor : Option JStr := none
  userAgent : Option JStr := none
  cookieHeader : Option JStr := none
  contentTypeHeader : Option JStr := none
  contentLengthHeader : Option JStr := none
  urlOrigin : JStr := []
  bodyChunks : Option (List (List Nat)) := none

/-- `resolveRequestOrigin` from the source. -/
def resolveRequestOrigin (uo : JStr → Option JStr) (req : ReqM) : Option JStr :=
  let directOrigin := req.originHeader.getD []
  if directOrigin ≠ [] then some directOrigin
  else
    let referer := req.refererHeader.getD []
    if referer = [] then none
    else uo referer

/-- `parseAllowedOrigins` from the source (a `Set` is a list here; only
membership and emptiness are consumed). -/
def parseAllowedOrigins (uo : JStr → Option JStr) (req : ReqM)
    (rawAllowedOrigins : Option JStr) : List JStr :=
  let configuredOrigins :=
    ((((splitOnChar ',' (rawAllowedOrigins.getD [])).map trimJ).filter
      (fun v => !v.isEmpty)).map (fun v =>
        match uo v with
        | some o => [o]
        | none => [])).flatten
  let defaults := if configuredOrigins.isEmpty then [req.urlOrigin] else []
  defaults ++ configuredOrigins

/-- `getAllowedOriginForRequest` from the source. -/
def getAllowedOriginForRequest (uo : JStr → Option JStr) (req : ReqM)
    (env : EnvM) : Option JStr :=
  match resolveRequestOrigin uo req with
  | none => none
  | some requestOrigin =>
    if requestOrigin = [] then none
    else if (parseAllowedOrigins uo req env.allowedOrigins).contains requestOrigin then
      some requestOrigin
    else none

/-- `violatesFetchMetadataPolicy` from the source. -/
def violatesFetchMetadataPolicy (req : ReqM) : Bool :=
  let secFetchSite := lowerJ (req.secFetchSite.getD [])
  if secFetchSite ≠ [] ∧ secFetchSite ≠ jstr "same-origin" then true
  else
    let secFetchMode := lowerJ (req.secFetchMode.getD [])
    if secFetchMode ≠ [] ∧ secFetchMode ≠ jstr "cors" ∧
        secFetchMode ≠ jstr "same-origin" then true
    else false

/-- `getClientIp` from the source. -/
def getClientIp (req : ReqM) : JStr :=
  let connectingIp := req.cfConnectingIp.getD []
  if connectingIp ≠ [] then connectingIp
  else
    let forwardedFor := req.xForwardedFor.getD []
    if forwardedFor ≠ [] then
      let firstIp := trimJ ((splitOnChar ',' forwardedFor).headD [])
      if firstIp ≠ [] then firstIp else jstr "unknown"
    else jstr "unknown"

/-- `getUserAgent` from the source. -/
def getUserAgent (req : ReqM) : JStr :=
  takeJ 256 (trimJ (req.userAgent.getD (jstr "unknown")))

/-- `hashClientBinding` from the source (`sha` is SHA-256 over UTF-8). -/
def hashClientBinding (sha : JStr → List Nat) (input : JStr) : JStr :=
  bytesToBase64Url (sha input)

/-- `getClientBinding` from the source. -/
def getClientBinding (sha : JStr → List Nat) (req : ReqM) : JStr :=
  hashClientBinding sha (getClientIp req ++ jstr "|" ++ getUserAgent req)

def SESSION_COOKIE_NAME : JStr := jstr "ez_notify_sid"

/-- The entry loop of `getCookieValue`. -/
def getCookieValueLoop (dUC : JStr → Option JStr) (cookieName : JStr) :
    List JStr → Option JStr
  | [] => none
  | entry :: rest =>
    let trimmed := trimJ entry
    if trimmed = [] then getCookieValueLoop dUC cookieName rest
    else
      match trimmed.findIdx? (fun c => c == '=') with
      | none => getCookieValueLoop dUC cookieName rest
      | some separatorIndex =>
        if separatorIndex = 0 then getCookieValueLoop dUC cookieName rest
        else
          let name := trimJ (trimmed.take separatorIndex)
          if name ≠ cookieName then getCookieValueLoop dUC cookieName rest
          else
            let value := trimJ (trimmed.drop (separatorIndex + 1))
            match dUC value with
            | some decoded => some decoded
            | none => some value

/-- `getCookieValue` from the source (`indexOf "=" <= 0` skips the entry;
a `decodeURIComponent` throw falls back to the raw value). -/
def getCookieValue (dUC : JStr → Option JStr) (req : ReqM)
    (cookieName : JStr) : Option JStr :=
  match req.cookieHeader with
  | none => none
  | some cookieHeader =>
    if cookieHeader = [] then none
    else getCookieValueLoop dUC cookieName (splitOnChar ';' cookieHeader)

/-- `parseConfiguredLocationTokens` from the source. -/
def parseConfiguredLocationTokens (rawValue : JStr) : List JStr :=
  ((splitOnChar ',' rawValue).map trimJ).filter isValidLocationToken

/-- `getConfiguredLocationTokens` from the source (the raw-value cache is
semantically transparent and omitted). -/
def getConfiguredLocationTokens (rawValue : Option JStr) : Option (List JStr) :=
  let normalized := trimJ (rawValue.getD [])
  if normalized = [] then none
  else some (parseConfiguredLocationTokens normalized)

/-- Result of `validateKnownLocationToken`. -/
inductive LocCheck where
  | ok
  | fail (status : Int) (error : JStr)
deriving DecidableEq

/-- `validateKnownLocationToken` from the source; `catalog` is the result
of `loadCatalogLocationTokens` (a cached network fetch, `none` on
failure). -/
def validateKnownLocationToken (locationToken : JStr) (env : EnvM)
    (catalog : Option (List JStr)) : LocCheck :=
  match getConfiguredLocationTokens env.notifyAllowedLocationTokens with
  | some configuredTokens =>
    if configuredTokens.isEmpty then
      .fail 500 (jstr "NOTIFY_ALLOWED_LOCATION_TOKENS is configured but has no valid tokens")
    else if !(configuredTokens.contains locationToken) then
      .fail 400 (jstr "Unknown locationToken")
    else .ok
  | none =>
    match catalog with
    | none => .fail 503 (jstr "Location catalog unavailable")
    | some catalogTokens =>
      if !(catalogTokens.contains locationToken) then
        .fail 400 (jstr "Unknown locationToken")
      else .ok

/-- `readContentLength` from the source. -/
def readContentLength (req : ReqM) : Option Int :=
  let value := req.contentLengthHeader.getD []
  if value = [] then none
  else
    match parseIntJS value with
    | none => none
    | some parsed => if parsed < 0 then none else some parsed

/-- Result of the body reader: the raw bytes (their text decoding is
consumed only by `JSON.parse`, i.e. by `jp`) or an error with a status. -/
inductive BodyRead where
  | value (bytes : List Nat)
  | err (error : JStr) (status : Int)
deriving DecidableEq

/-- The read loop of `readRequestTextWithLimit`: accumulate chunks, fail
with 413 as soon as the received byte count exceeds the limit. -/
def readBodyLoop (maxBytes : Nat) : List (List Nat) → Nat → List Nat → BodyRead
  | [], _, acc => .value acc
  | chunk :: rest, receivedBytes, acc =>
    let receivedBytes' := receivedBytes + chunk.length
    if receivedBytes' > maxBytes then .err (jstr "Request body too large") 413
    else readBodyLoop maxBytes rest receivedBytes' (acc ++ chunk)

/-- `readRequestTextWithLimit` from the source.  A missing body (`none`)
is the no-reader path, where `request.text()` returns the empty string. -/
def readRequestTextWithLimit (req : ReqM) (maxBytes : Nat) : BodyRead :=
  match req.bodyChunks with
  | none => if 0 > maxBytes then .err (jstr "Request body too large") 413 else .value []
  | some chunks => readBodyLoop maxBytes chunks 0 []

/-- The validated body of a POST (`NotifyBody` from the source). -/
structure NotifyBodyM where
  title : JStr
  message : JStr
  locationToken : JStr
  authToken : JStr
deriving DecidableEq

/-- Result of `parseNotifyBody`. -/
inductive BodyParse where
  | ok (value : NotifyBodyM)
  | err (error : JStr) (status : Int)
deriving DecidableEq

/-- The part of `parseNotifyBody` after the content-type and
content-length gates: read the body, `JSON.parse` it, validate fields. -/
def parseNotifyBodyRest (jp : List Nat → Option Json) (req : ReqM) : BodyParse :=
  match readRequestTextWithLimit req MAX_JSON_BODY_BYTES with
  | .err e s => .err e s
  | .value rawBody =>
    match jp rawBody with
    | none => .err (jstr "Invalid JSON body") 400
    | some parsed =>
      if isObjectRecord parsed = false then .err (jstr "Invalid JSON body") 400
      else
        match parsed.getField (jstr "title"), parsed.getField (jstr "message"),
          parsed.getField (jstr "locationToken"), parsed.getField (jstr "authToken") with
        | some (.str rawTitle), some (.str rawMessage),
          some (.str rawLocationToken), some (.str rawAuthToken) =>
          let title := takeJ MAX_TITLE_LENGTH (trimJ rawTitle)
          let message := takeJ MAX_MESSAGE_LENGTH (trimJ rawMessage)
          let locationToken := trimJ rawLocationToken
          let authToken := trimJ rawAuthToken
          if title.isEmpty || message.isEmpty then
            .err (jstr "title and message are required") 400
          else if isValidLocationToken locationToken = false then
            .err (jstr "Invalid locationToken") 400
          else if authToken.isEmpty || authToken.length > (MAX_AUTH_TOKEN_LENGTH : Nat) then
            .err (jstr "Invalid authToken") 400
          else .ok ⟨title, message, locationToken, authToken⟩
        | _, _, _, _ =>
          .err (jstr "title, message, locationToken and authToken are required") 400

/-- `parseNotifyBody` from the source. -/
def parseNotifyBody (jp : List Nat → Option Json) (req : ReqM) : BodyParse :=
  let contentType := req.contentTypeHeader.getD []
  if !(includesB (lowerJ contentType) (jstr "application/json")) then
    .err (jstr "Content-Type must be application/json") 415
  else
    match readContentLength req with
    | some contentLength =>
      if contentLength > (MAX_JSON_BODY_BYTES : Int) then
        .err (jstr "Request body too large") 413
      else parseNotifyBodyRest jp req
    | none => parseNotifyBodyRest jp req

/-- A JavaScript error value as far as `isAbortError` inspects it. -/
inductive JsErr where
  | notObject
  | objWithName (name : JStr)
  | objNoName
deriving DecidableEq

/-- `isAbortError` from the source. -/
def isAbortError (error : JsErr) : Bool :=
  match error with
  | .notObject => false
  | .objNoName => false
  | .objWithName name => name == jstr "AbortError"

/-- Outcome of the outbound `fetch` to Pushover: an exception (the abort
case is a thrown `AbortError`) or a response with status and body text. -/
inductive FetchOut where
  | thrown (error : JsErr)
  | resp (status : Int) (body : JStr)
deriving DecidableEq

/-- `Response.ok` per the Fetch specification: status in 200..299. -/
def respOk (status : Int) : Bool := decide (200 ≤ status ∧ status < 300)

/-- A response as far as the claims observe it: status and JSON body
(headers are not modelled). -/
structure RespM where
  status : Int
  body : Json

/-- `{ok:false, error}` response bodies. -/
def errBody (error : JStr) : Json :=
  .obj [(jstr "ok", .bool false), (jstr "error", .str error)]

/-- The `{ok:true}` success body. -/
def okBody : Json := .obj [(jstr "ok", .bool true)]

/-- `console.error` events of the dispatch tail. -/
inductive LogEvent where
  | pushoverRequestFailed
  | pushoverRejected (status : Int) (bodyTruncated : JStr)
deriving DecidableEq

/-- The process-wide mutable state the POST handler touches. -/
structure SrvState where
  buckets : RLState
  usedIds : UsedIds
deriving DecidableEq

/-- Result of one `onRequestPost` invocation. -/
structure PostOut where
  resp : RespM
  st : SrvState
  logs : List LogEvent

/-- The dispatch tail of `onRequestPost`: the `fetch` to Pushover wrapped
in the try/catch with the abort-timeout mapping, then the `!pushoverRes.ok`
branch with the truncated provider log. -/
def dispatchTail (pushover : FetchOut) (st3 : SrvState) : PostOut :=
  match pushover with
  | .thrown error =>
    if isAbortError error then
      ⟨⟨504, errBody (jstr "Notification timeout. Please try again.")⟩, st3, []⟩
    else
      ⟨⟨502, errBody (jstr "Notification request failed. Please try again.")⟩,
        st3, [.pushoverRequestFailed]⟩
  | .resp status providerBody =>
    if respOk status = false then
      ⟨⟨502, errBody (jstr "Notification provider rejected request.")⟩, st3,
        [.pushoverRejected status (takeJ 500 providerBody)]⟩
    else ⟨⟨200, okBody⟩, st3, []⟩

/-- `onRequestPost` from the source, with the platform pieces explicit:
one `now` for the request, `catalog` the resolved catalog token set,
`pushover` the outcome of the outbound call. -/
def onRequestPost (uo dUC : JStr → Option JStr) (jp : List Nat → Option Json)
    (hmac : JStr → JStr → List Nat) (sha : JStr → List Nat)
    (req : ReqM) (env : EnvM) (now : Int) (catalog : Option (List JStr))
    (pushover : FetchOut) (st : SrvState) : PostOut :=
  match getAllowedOriginForRequest uo req env with
  | none => ⟨⟨403, errBody (jstr "Forbidden origin")⟩, st, []⟩
  | some _allowedOrigin =>
    if violatesFetchMetadataPolicy req then
      ⟨⟨403, errBody (jstr "Cross-site requests are not allowed")⟩, st, []⟩
    else if env.pushoverAppToken.isEmpty || env.pushoverUserKey.isEmpty then
      ⟨⟨500, errBody (jstr "Pushover credentials not configured")⟩, st, []⟩
    else
      match getSigningSecret env with
      | none => ⟨⟨500, errBody (jstr "Notify signing secret not configured")⟩, st, []⟩
      | some _signingSecret =>
        let rateLimitPerMinute := getRateLimitPerMinute env
        let clientIp := getClientIp req
        let rl := isRateLimited clientIp rateLimitPerMinute now st.buckets
        let st1 : SrvState := ⟨rl.2, st.usedIds⟩
        if rl.1 then
          ⟨⟨429, errBody (jstr "Too many requests. Please wait and try again.")⟩, st1, []⟩
        else
          match parseNotifyBody jp req with
          | .err e s => ⟨⟨s, errBody e⟩, st1, []⟩
          | .ok parsedBody =>
            match validateKnownLocationToken parsedBody.locationToken env catalog with
            | .fail s e => ⟨⟨s, errBody e⟩, st1, []⟩
            | .ok =>
              let sessionId := trimJ ((getCookieValue dUC req SESSION_COOKIE_NAME).getD [])
              if isSafeTokenComponent sessionId MAX_SESSION_ID_LENGTH = false then
                ⟨⟨401, errBody (jstr "Unauthorized request")⟩, st1, []⟩
              else
                let clientBinding := getClientBinding sha req
                match verifyNotifyAuthToken jp hmac now parsedBody.authToken
                  parsedBody.locationToken sessionId clientBinding env with
                | .fail => ⟨⟨401, errBody (jstr "Unauthorized request")⟩, st1, []⟩
                | .ok payload =>
                  let used1 := cleanupUsedAuthTokenIds now st1.usedIds
                  let rp := isAuthTokenReplay payload.jti now used1
                  let st2 : SrvState := ⟨st1.buckets, rp.2⟩
                  if rp.1 then
                    ⟨⟨409, errBody (jstr "Replay detected. Request a new auth token.")⟩, st2, []⟩
                  else
                    let st3 : SrvState :=
                      ⟨st2.buckets, rememberUsedAuthToken payload.jti payload.exp now st2.usedIds⟩
                    dispatchTail pushover st3

/-! ## Concrete instances used by witnesses -/

def wLoc : JStr := jstr "L1"
def wSid : JStr := jstr "s1"
def wBind : JStr := jstr "B1"
def wRnd : List Nat := List.range 18
def wHmac : JStr → JStr → List Nat := fun _ _ => List.range 32
def wEnv : EnvM := { pushoverAppToken := jstr "t", pushoverUserKey := jstr "u" }
def wPayload : NotifyAuthPayload := issuedPayload wRnd 0 wLoc wSid wBind wEnv
def wJp : List Nat → Option Json := fun b =>
  if b = utf8Encode (stringifyPayload wPayload) then some (payloadToJson wPayload) else none
def wTok : JStr :=
  bytesToBase64Url (utf8Encode (stringifyPayload wPayload)) ++
    '.' :: bytesToBase64Url (List.range 32)

/-- `new URL(...).origin` oracle for the handler witnesses (never consulted
on the chosen request, whose `Origin` header is set). -/
def wUo : JStr → Option JStr := fun _ => none

/-- `decodeURIComponent` oracle for the handler witnesses (identity). -/
def wDuc : JStr → Option JStr := fun s => some s

/-- SHA-256 oracle for the handler witnesses. -/
def wSha : JStr → List Nat := fun _ => List.range 32

/-- A request that passes every admission gate of `onRequestPost`. -/
def wReq : ReqM :=
  { originHeader := some (jstr "http://o")
    cfConnectingIp := some (jstr "1.2.3.4")
    userAgent := some (jstr "ua")
    cookieHeader := some (jstr "ez_notify_sid=s1")
    contentTypeHeader := some (jstr "application/json")
    urlOrigin := jstr "http://o"
    bodyChunks := some [[48]] }

/-- The client binding the handler computes for `wReq`. -/
def wBind2 : JStr := getClientBinding wSha wReq

/-- Payload bound to `wReq`'s session and client binding. -/
def wPayload2 : NotifyAuthPayload := issuedPayload wRnd 0 wLoc wSid wBind2 wEnv

/-- Token for `wPayload2` signed with `wHmac`. -/
def wTok2 : JStr :=
  bytesToBase64Url (utf8Encode (stringifyPayload wPayload2)) ++
    '.' :: bytesToBase64Url (List.range 32)

/-- The JSON body `wReq` carries. -/
def wBody2 : Json :=
  .obj [(jstr "title", .str (jstr "T")), (jstr "message", .str (jstr "M")),
    (jstr "locationToken", .str wLoc), (jstr "authToken", .str wTok2)]

/-- JSON-parse oracle covering both the request body and the token payload. -/
def wJp2 : List Nat → Option Json := fun b =>
  if b = utf8Encode (stringifyPayload wPayload2) then some (payloadToJson wPayload2)
  else if b = [48] then some wBody2 else none

/-- Catalog containing the witness location token. -/
def wCat : Option (List JStr) := some [wLoc]

/-- The body `parseNotifyBody` extracts from `wReq`. -/
def wNb : NotifyBodyM := ⟨jstr "T", jstr "M", wLoc, wTok2⟩

/-- Empty initial server state. -/
def wSt0 : SrvState := ⟨[], []⟩

/-! ## Lemmas and claim theorems -/

theorem charToSextet_sextetToChar : ∀ i < 64, charToSextet (sextetToChar i) = some i := by
  decide

theorem b64UrlChar_comp (c : Char) :
    (fun c => if c = '/' then '_' else c) ((fun c => if c = '+' then '-' else c) c) =
      b64UrlChar c := by
  by_cases h1 : c = '+' <;> by_cases h2 : c = '/' <;> simp_all [b64UrlChar]

theorem b64UnurlChar_comp (c : Char) :
    (fun c => if c = '_' then '/' else c) ((fun c => if c = '-' then '+' else c) c) =
      b64UnurlChar c := by
  by_cases h1 : c = '-' <;> by_cases h2 : c = '_' <;> simp_all [b64UnurlChar]

theorem b64UrlChar_sextet_ne_eq : ∀ s < 64, b64UrlChar (sextetToChar s) ≠ '=' := by
  decide

theorem b64UnurlChar_b64UrlChar_sextet :
    ∀ s < 64, b64UnurlChar (b64UrlChar (sextetToChar s)) = sextetToChar s := by
  decide

/-- Structure of `btoa` output: alphabet characters followed by `k ≤ 2`
padding characters, decoding back to the input bytes. -/
theorem btoa_structure :
    ∀ bytes : List Nat, (∀ b ∈ bytes, b < 256) →
    ∃ ss k, btoa bytes = ss.map sextetToChar ++ List.replicate k '=' ∧
      (∀ s ∈ ss, s < 64) ∧ k ≤ 2 ∧ (ss.length + k) % 4 = 0 ∧
      ss.length + k = (bytes.length + 2) / 3 * 4 ∧
      sextetsToBytes ss = some bytes
  | [], _ => ⟨[], 0, by simp [btoa, sextetsToBytes]⟩
  | [a], h => by
    have ha : a < 256 := h a (by simp)
    refine ⟨[a / 4, a % 4 * 16], 2, by simp [btoa, List.replicate], ?_, by omega, by simp, by simp, ?_⟩
    · intro s hs
      simp at hs
      rcases hs with hs | hs <;> omega
    · show sextetsToBytes [a / 4, a % 4 * 16] = some [a]
      simp only [sextetsToBytes, Option.some.injEq, List.cons.injEq, and_true]
      omega
  | [a, b], h => by
    have ha : a < 256 := h a (by simp)
    have hb : b < 256 := h b (by simp)
    refine ⟨[a / 4, a % 4 * 16 + b / 16, b % 16 * 4], 1,
      by simp [btoa, List.replicate], ?_, by omega, by simp, by simp, ?_⟩
    · intro s hs
      simp at hs
      rcases hs with hs | hs | hs <;> omega
    · show sextetsToBytes [a / 4, a % 4 * 16 + b / 16, b % 16 * 4] = some [a, b]
      simp only [sextetsToBytes, Option.some.injEq, List.cons.injEq, and_true]
      constructor
      · omega
      · omega
  | a :: b :: c :: rest, h => by
    have ha : a < 256 := h a (by simp)
    have hb : b < 256 := h b (by simp)
    have hc : c < 256 := h c (by simp)
    obtain ⟨ss, k, hout, hss, hk, hmod, hlen, hdec⟩ :=
      btoa_structure rest (fun x hx => h x (by simp [hx]))
    refine ⟨a / 4 :: (a % 4 * 16 + b / 16) :: (b % 16 * 4 + c / 64) :: c % 64 :: ss, k,
      ?_, ?_, hk, by simp; omega, by simp; omega, ?_⟩
    · simp [btoa, hout]
    · intro s hs
      simp at hs
      rcases hs with hs | hs | hs | hs | hs
      · omega
      · omega
      · omega
      · omega
      · exact hss s hs
    · show sextetsToBytes (_ :: _ :: _ :: _ :: ss) = _
      rw [sextetsToBytes, hdec]
      have h1 : a / 4 * 4 + (a % 4 * 16 + b / 16) / 16 = a := by omega
      have h2 : (a % 4 * 16 + b / 16) % 16 * 16 + (b % 16 * 4 + c / 64) / 4 = b := by omega
      have h3 : (b % 16 * 4 + c / 64) % 4 * 64 + c % 64 = c := by omega
      simp [h1, h2, h3]

theorem dropWhile_replicate_append (p : Char → Bool) (x : Char) (hx : p x = true)
    (k : Nat) (l : List Char) :
    List.dropWhile p (List.replicate k x ++ l) = List.dropWhile p l := by
  induction k with
  | zero => simp
  | succ n ih => simp [List.replicate_succ, List.dropWhile_cons, hx, ih]

theorem dropWhile_eq_self_of_mem (p : Char → Bool) (l : List Char)
    (hl : ∀ c ∈ l, p c = false) : List.dropWhile p l = l := by
  cases l with
  | nil => rfl
  | cons c t => simp [List.dropWhile_cons, hl c (by simp)]

/-- Stripping trailing `=` from alphabet characters followed by padding
recovers the alphabet characters. -/
theorem dropTrailingEq_append (cs : List Char) (hcs : ∀ c ∈ cs, c ≠ '=') (k : Nat) :
    ((cs ++ List.replicate k '=').reverse.dropWhile (fun c => c = '=')).reverse = cs := by
  rw [List.reverse_append, List.reverse_replicate,
    dropWhile_replicate_append _ _ (by simp) k,
    dropWhile_eq_self_of_mem _ _ (fun c hc => by
      simp only [decide_eq_false_iff_not]
      exact hcs c (List.mem_reverse.mp hc)),
    List.reverse_reverse]

/-- `dropUpTo2Eq` strips exactly the padding. -/
theorem dropUpTo2Eq_append (cs : List Char) (hcs : ∀ c ∈ cs, c ≠ '=') :
    ∀ k ≤ 2, dropUpTo2Eq (cs ++ List.replicate k '=') = cs := by
  intro k hk
  interval_cases k
  · have hrev : (cs ++ List.replicate 0 '=').reverse = cs.reverse := by simp
    unfold dropUpTo2Eq
    rw [hrev]
    split
    · next r heq =>
      have : '=' ∈ cs.reverse := by rw [heq]; simp
      exact absurd rfl (hcs '=' (List.mem_reverse.mp this))
    · next r hno heq =>
      have : '=' ∈ cs.reverse := by rw [heq]; simp
      exact absurd rfl (hcs '=' (List.mem_reverse.mp this))
    · simp
  · have hrev : (cs ++ List.replicate 1 '=').reverse = '=' :: cs.reverse := by
      rw [List.reverse_append, List.reverse_replicate]; rfl
    unfold dropUpTo2Eq
    rw [hrev]
    split
    · next x r ht =>
      have ht2 : cs.reverse = '=' :: r := by injection ht
      have : '=' ∈ cs.reverse := by rw [ht2]; simp
      exact absurd rfl (hcs '=' (List.mem_reverse.mp this))
    · next x r hno ht =>
      have ht2 : cs.reverse = r := by injection ht
      rw [← ht2, List.reverse_reverse]
    · next h1 h2 => exact absurd rfl (h2 cs.reverse)
  · have hrev : (cs ++ List.replicate 2 '=').reverse = '=' :: '=' :: cs.reverse := by
      rw [List.reverse_append, List.reverse_replicate]; rfl
    unfold dropUpTo2Eq
    rw [hrev]
    simp

theorem sextetToChar_ne_eq : ∀ s < 64, sextetToChar s ≠ '=' := by decide

theorem charsToSextets_map (ss : List Nat) (h : ∀ s ∈ ss, s < 64) :
    charsToSextets (ss.map sextetToChar) = some ss := by
  induction ss with
  | nil => rfl
  | cons s t ih =>
    have hs := charToSextet_sextetToChar s (h s (by simp))
    simp only [List.map_cons, charsToSextets, hs, ih (fun x hx => h x (by simp [hx]))]

theorem urlmap_map (ss : List Nat) (hss : ∀ s ∈ ss, s < 64) :
    ((ss.map sextetToChar).map (fun c => if c = '+' then '-' else c)).map
        (fun c => if c = '/' then '_' else c) =
      ss.map (fun s => b64UrlChar (sextetToChar s)) := by
  induction ss with
  | nil => rfl
  | cons s t ih =>
    have hhead : (fun c => if c = '/' then '_' else c)
        ((fun c => if c = '+' then '-' else c) (sextetToChar s)) =
          b64UrlChar (sextetToChar s) := b64UrlChar_comp (sextetToChar s)
    show (fun c => if c = '/' then '_' else c)
        ((fun c => if c = '+' then '-' else c) (sextetToChar s)) ::
        ((t.map sextetToChar).map (fun c => if c = '+' then '-' else c)).map
          (fun c => if c = '/' then '_' else c) =
      b64UrlChar (sextetToChar s) :: t.map (fun x => b64UrlChar (sextetToChar x))
    rw [hhead, ih (fun x hx => hss x (by simp [hx]))]

theorem unmap_map (ss : List Nat) (hss : ∀ s ∈ ss, s < 64) :
    ((ss.map (fun s => b64UrlChar (sextetToChar s))).map
        (fun c => if c = '-' then '+' else c)).map
        (fun c => if c = '_' then '/' else c) =
      ss.map sextetToChar := by
  induction ss with
  | nil => rfl
  | cons s t ih =>
    have hhead : (fun c => if c = '_' then '/' else c)
        ((fun c => if c = '-' then '+' else c) (b64UrlChar (sextetToChar s))) =
          sextetToChar s := by
      rw [b64UnurlChar_comp]
      exact b64UnurlChar_b64UrlChar_sextet s (hss s (by simp))
    show (fun c => if c = '_' then '/' else c)
        ((fun c => if c = '-' then '+' else c) (b64UrlChar (sextetToChar s))) ::
        ((t.map (fun x => b64UrlChar (sextetToChar x))).map
          (fun c => if c = '-' then '+' else c)).map
          (fun c => if c = '_' then '/' else c) =
      sextetToChar s :: t.map sextetToChar
    rw [hhead, ih (fun x hx => hss x (by simp [hx]))]

/-- `bytesToBase64Url` output characterized: an alphabet-character image of
the sextet list produced by `btoa`, with padding stripped. -/
theorem bytesToBase64Url_spec (bytes : List Nat) (h : ∀ b ∈ bytes, b < 256) :
    ∃ ss k, (∀ s ∈ ss, s < 64) ∧ k ≤ 2 ∧ (ss.length + k) % 4 = 0 ∧
      ss.length + k = (bytes.length + 2) / 3 * 4 ∧
      sextetsToBytes ss = some bytes ∧
      bytesToBase64Url bytes = ss.map (fun s => b64UrlChar (sextetToChar s)) := by
  obtain ⟨ss, k, hout, hss, hk, hmod, hlen, hdec⟩ := btoa_structure bytes h
  refine ⟨ss, k, hss, hk, hmod, hlen, hdec, ?_⟩
  unfold bytesToBase64Url
  rw [hout]
  rw [List.map_append, List.map_append, List.map_replicate, List.map_replicate]
  have hrep : List.replicate k
      (if (if ('=' : Char) = '+' then '-' else '=') = '/' then '_'
        else if ('=' : Char) = '+' then '-' else '=') = List.replicate k '=' := rfl
  rw [hrep]
  rw [urlmap_map ss hss]
  exact dropTrailingEq_append _
    (fun c hc => by
      obtain ⟨s, hsmem, rfl⟩ := List.mem_map.mp hc
      exact b64UrlChar_sextet_ne_eq s (hss s hsmem)) k

/-- The repository's base64url decode inverts its base64url encode on byte
lists. -/
theorem base64UrlToBytes_bytesToBase64Url (bytes : List Nat)
    (h : ∀ b ∈ bytes, b < 256) :
    base64UrlToBytes (bytesToBase64Url bytes) = some bytes := by
  obtain ⟨ss, k, hss, hk, hmod, _hlen, hdec, henc⟩ := bytesToBase64Url_spec bytes h
  rw [henc]
  show atob _ = some bytes
  rw [unmap_map ss hss]
  have hlen1 : (ss.map sextetToChar).length = ss.length := List.length_map _ _
  rw [hlen1]
  have hpadk : (4 - ss.length % 4) % 4 = k := by omega
  rw [hpadk]
  unfold atob
  have hfull : (ss.map sextetToChar ++ List.replicate k '=').length % 4 = 0 := by
    simp only [List.length_append, List.length_map, List.length_replicate]
    omega
  rw [if_pos hfull]
  rw [dropUpTo2Eq_append _ (fun c hc => by
      obtain ⟨s, hsmem, rfl⟩ := List.mem_map.mp hc
      exact sextetToChar_ne_eq s (hss s hsmem)) k hk]
  have hne1 : ¬ (ss.map sextetToChar).length % 4 = 1 := by
    simp only [List.length_map]
    omega
  rw [if_neg hne1]
  rw [charsToSextets_map ss hss]
  exact hdec

theorem utf8EncodeChar_lt256 (c : Char) : ∀ b ∈ utf8EncodeChar c, b < 256 := by
  have heq : c.toNat = c.val.toNat := rfl
  have hval : c.toNat < 1114112 := by
    have h := c.valid
    rcases h with h | ⟨h1, h2⟩
    · have : c.val.toNat < 55296 := h
      omega
    · have : c.val.toNat < 1114112 := h2
      omega
  simp only [utf8EncodeChar]
  split_ifs with h1 h2 h3 <;> intro b hb <;> simp at hb <;> omega

theorem utf8Encode_lt256 (s : JStr) : ∀ b ∈ utf8Encode s, b < 256 := by
  intro b hb
  simp only [utf8Encode, List.mem_flatten, List.mem_map] at hb
  obtain ⟨l, ⟨c, _, rfl⟩, hbl⟩ := hb
  exact utf8EncodeChar_lt256 c b hbl

theorem utf8EncodeChar_ne_nil (c : Char) : utf8EncodeChar c ≠ [] := by
  simp only [utf8EncodeChar]
  split_ifs <;> simp

theorem utf8Encode_length_pos (c : Char) (t : JStr) :
    0 < (utf8Encode (c :: t)).length := by
  simp only [utf8Encode, List.map_cons, List.flatten_cons, List.length_append]
  have := utf8EncodeChar_ne_nil c
  have : 0 < (utf8EncodeChar c).length := List.length_pos.mpr this
  omega

theorem splitOnChar_ne_nil (sep : Char) (l : JStr) : splitOnChar sep l ≠ [] := by
  cases l with
  | nil => simp [splitOnChar]
  | cons c rest =>
    unfold splitOnChar
    split
    · simp
    · split <;> simp

theorem splitOnChar_not_mem (sep : Char) (l : JStr) (h : sep ∉ l) :
    splitOnChar sep l = [l] := by
  induction l with
  | nil => rfl
  | cons c rest ih =>
    have hc : c ≠ sep := fun hc => h (by simp [hc])
    have hr := ih (fun hr => h (by simp [hr]))
    unfold splitOnChar
    rw [hr]
    simp [hc]

theorem splitOnChar_cons_eq (sep c : Char) (rest : JStr) :
    splitOnChar sep (c :: rest) =
      match splitOnChar sep rest with
      | [] => [[]]
      | h :: t => if c = sep then [] :: h :: t else (c :: h) :: t := by
  rw [splitOnChar]

theorem splitOnChar_append (sep : Char) (l₁ l₂ : JStr) (h : sep ∉ l₁) :
    splitOnChar sep (l₁ ++ sep :: l₂) = l₁ :: splitOnChar sep l₂ := by
  induction l₁ with
  | nil =>
    show splitOnChar sep (sep :: l₂) = [] :: splitOnChar sep l₂
    rw [splitOnChar_cons_eq]
    cases hsp : splitOnChar sep l₂ with
    | nil => exact absurd hsp (splitOnChar_ne_nil sep l₂)
    | cons a b => simp
  | cons c rest ih =>
    have hc : c ≠ sep := fun hc => h (by simp [hc])
    have hr := ih (fun hr => h (by simp [hr]))
    show splitOnChar sep (c :: (rest ++ sep :: l₂)) = (c :: rest) :: splitOnChar sep l₂
    rw [splitOnChar_cons_eq, hr]
    simp [hc]

theorem b64UrlChar_sextet_tokenChar :
    ∀ s < 64, tokenComponentChar (b64UrlChar (sextetToChar s)) = true := by
  decide

/-- Characters of a base64url encoding match the token pattern (in
particular none of them is a dot). -/
theorem bytesToBase64Url_tokenChars (bytes : List Nat) (h : ∀ b ∈ bytes, b < 256) :
    ∀ c ∈ bytesToBase64Url bytes, tokenComponentChar c = true := by
  obtain ⟨ss, k, hss, _, _, _, _, henc⟩ := bytesToBase64Url_spec bytes h
  rw [henc]
  intro c hc
  obtain ⟨s, hsmem, rfl⟩ := List.mem_map.mp hc
  exact b64UrlChar_sextet_tokenChar s (hss s hsmem)

theorem tokenComponentChar_ne_dot (c : Char) (h : tokenComponentChar c = true) :
    c ≠ '.' := by
  intro hc
  rw [hc] at h
  exact absurd h (by decide)

theorem bytesToBase64Url_no_dot (bytes : List Nat) (h : ∀ b ∈ bytes, b < 256) :
    '.' ∉ bytesToBase64Url bytes := by
  intro hmem
  exact tokenComponentChar_ne_dot '.' (bytesToBase64Url_tokenChars bytes h '.' hmem) rfl

theorem bytesToBase64Url_length_bounds (bytes : List Nat) (h : ∀ b ∈ bytes, b < 256) :
    (bytes.length + 2) / 3 * 4 - 2 ≤ (bytesToBase64Url bytes).length ∧
      (bytesToBase64Url bytes).length ≤ (bytes.length + 2) / 3 * 4 := by
  obtain ⟨ss, k, _, hk, _, hlen, _, henc⟩ := bytesToBase64Url_spec bytes h
  rw [henc, List.length_map]
  omega

/-- A base64url encoding of a non-empty byte string of at most 96 bytes is
a valid safe token component at the 128-character bound. -/
theorem bytesToBase64Url_isSafeTokenComponent (bytes : List Nat)
    (h : ∀ b ∈ bytes, b < 256) (hne : bytes ≠ []) (hlen : bytes.length ≤ 96) :
    isSafeTokenComponent (bytesToBase64Url bytes) MAX_SESSION_ID_LENGTH = true := by
  obtain ⟨hlo, hhi⟩ := bytesToBase64Url_length_bounds bytes h
  have hpos : 0 < bytes.length := List.length_pos.mpr hne
  unfold isSafeTokenComponent MAX_SESSION_ID_LENGTH
  rw [Bool.and_eq_true, Bool.and_eq_true]
  refine ⟨⟨by rw [decide_eq_true_iff]; omega, by rw [decide_eq_true_iff]; omega⟩, ?_⟩
  rw [List.all_eq_true]
  exact fun c hc => bytesToBase64Url_tokenChars bytes h c hc

theorem bytesToBase64Url_ne_nil (bytes : List Nat) (h : ∀ b ∈ bytes, b < 256)
    (hne : bytes ≠ []) : bytesToBase64Url bytes ≠ [] := by
  obtain ⟨hlo, _⟩ := bytesToBase64Url_length_bounds bytes h
  have hpos : 0 < bytes.length := List.length_pos.mpr hne
  intro hnil
  rw [hnil] at hlo
  simp only [List.length_nil, Nat.le_zero] at hlo
  omega

theorem stringifyPayload_ne_nil (p : NotifyAuthPayload) : stringifyPayload p ≠ [] := by
  intro h
  have hlen : (stringifyPayload p).length = 0 := by rw [h]; rfl
  have h1 : 0 < (jstr "\x7b\"v\":1,\"loc\":\"").length := by decide
  simp only [stringifyPayload, List.length_append] at hlen
  omega

theorem utf8Encode_ne_nil (s : JStr) (h : s ≠ []) : utf8Encode s ≠ [] := by
  cases s with
  | nil => exact absurd rfl h
  | cons c t =>
    have hp := utf8Encode_length_pos c t
    intro hn
    rw [hn] at hp
    simp at hp

theorem payloadToJson_getField_v (p : NotifyAuthPayload) :
    (payloadToJson p).getField (jstr "v") = some (.num 1) := rfl

theorem payloadToJson_getField_loc (p : NotifyAuthPayload) :
    (payloadToJson p).getField (jstr "loc") = some (.str p.loc) := rfl

theorem payloadToJson_getField_exp (p : NotifyAuthPayload) :
    (payloadToJson p).getField (jstr "exp") = some (.num p.exp) := rfl

theorem payloadToJson_getField_sid (p : NotifyAuthPayload) :
    (payloadToJson p).getField (jstr "sid") = some (.str p.sid) := rfl

theorem payloadToJson_getField_jti (p : NotifyAuthPayload) :
    (payloadToJson p).getField (jstr "jti") = some (.str p.jti) := rfl

theorem payloadToJson_getField_bind (p : NotifyAuthPayload) :
    (payloadToJson p).getField (jstr "bind") = some (.str p.bind) := rfl

/-- `parseNotifyAuthToken` accepts a well-formed `payload.signature` token
whose payload fields satisfy their patterns, recovering the payload. -/
theorem parseNotifyAuthToken_issued (jp : List Nat → Option Json)
    (pl : NotifyAuthPayload) (se : JStr)
    (hLoc : isValidLocationToken pl.loc = true)
    (hSid : isSafeTokenComponent pl.sid MAX_SESSION_ID_LENGTH = true)
    (hJti : isSafeTokenComponent pl.jti MAX_SESSION_ID_LENGTH = true)
    (hBind : isSafeTokenComponent pl.bind MAX_BINDING_LENGTH = true)
    (hJp : jp (utf8Encode (stringifyPayload pl)) = some (payloadToJson pl))
    (hSe : se ≠ []) (hSeDot : '.' ∉ se) :
    parseNotifyAuthToken jp
      (bytesToBase64Url (utf8Encode (stringifyPayload pl)) ++ '.' :: se) =
      some ⟨bytesToBase64Url (utf8Encode (stringifyPayload pl)), se, pl⟩ := by
  have hbytes := utf8Encode_lt256 (stringifyPayload pl)
  have hpedot : '.' ∉ bytesToBase64Url (utf8Encode (stringifyPayload pl)) :=
    bytesToBase64Url_no_dot _ hbytes
  have hpene : bytesToBase64Url (utf8Encode (stringifyPayload pl)) ≠ [] :=
    bytesToBase64Url_ne_nil _ hbytes
      (utf8Encode_ne_nil _ (stringifyPayload_ne_nil pl))
  unfold parseNotifyAuthToken
  rw [splitOnChar_append '.' _ _ hpedot, splitOnChar_not_mem '.' se hSeDot]
  simp only [List.isEmpty_iff, hpene, hSe, or_self, if_false,
    base64UrlToBytes_bytesToBase64Url _ hbytes, hJp]
  rw [show isObjectRecord (payloadToJson pl) = true from rfl]
  simp only [Bool.true_eq_false, if_false]
  rw [payloadToJson_getField_v, payloadToJson_getField_loc, payloadToJson_getField_exp,
    payloadToJson_getField_sid, payloadToJson_getField_jti, payloadToJson_getField_bind]
  simp only [hLoc, hSid, hJti, hBind, Bool.and_self, if_true]
  have hcond : ¬ ((List.isEmpty (bytesToBase64Url (utf8Encode (stringifyPayload pl))) ||
      List.isEmpty se) = true) := by
    simp only [Bool.or_eq_true, List.isEmpty_iff]
    rintro (h | h)
    · exact hpene h
    · exact hSe h
  rw [if_neg hcond]

/-- `verifyNotifyAuthToken` succeeds when the token parses, matches on all
three expectations, is unexpired and carries a valid signature. -/
theorem verifyNotifyAuthToken_ok (jp : List Nat → Option Json)
    (hmac : JStr → JStr → List Nat) (now : Int) (tok : JStr) (env : EnvM)
    (secret pe se : JStr) (pl : NotifyAuthPayload)
    (hsec : getSigningSecret env = some secret)
    (hparse : parseNotifyAuthToken jp tok = some ⟨pe, se, pl⟩)
    (hexp : now < pl.exp)
    (hsig : verifyEncodedPayloadSignature hmac pe se secret = true) :
    verifyNotifyAuthToken jp hmac now tok pl.loc pl.sid pl.bind env = .ok pl := by
  unfold verifyNotifyAuthToken
  rw [hsec, hparse]
  show (if pl.loc ≠ pl.loc then VerifyResult.fail
    else if pl.sid ≠ pl.sid then VerifyResult.fail
    else if pl.bind ≠ pl.bind then VerifyResult.fail
    else if pl.exp ≤ now then VerifyResult.fail
    else if verifyEncodedPayloadSignature hmac pe se secret = false then VerifyResult.fail
    else VerifyResult.ok pl) = VerifyResult.ok pl
  rw [if_neg (not_not_intro rfl), if_neg (not_not_intro rfl), if_neg (not_not_intro rfl),
    if_neg (not_le.mpr hexp), if_neg (by rw [hsig]; simp)]

/-- `verifyNotifyAuthToken` fails on any parsed token whose expiry has
been reached, whatever the expected location, session and binding. -/
theorem verifyNotifyAuthToken_expired (jp : List Nat → Option Json)
    (hmac : JStr → JStr → List Nat) (now : Int) (tok : JStr) (env : EnvM)
    (pt : ParsedToken)
    (hparse : parseNotifyAuthToken jp tok = some pt)
    (hexp : pt.payload.exp ≤ now) :
    ∀ eL eS eB, verifyNotifyAuthToken jp hmac now tok eL eS eB env = .fail := by
  intro eL eS eB
  unfold verifyNotifyAuthToken
  cases hsec : getSigningSecret env with
  | none => rfl
  | some secret =>
    rw [hparse]
    show (if pt.payload.loc ≠ eL then VerifyResult.fail
      else if pt.payload.sid ≠ eS then VerifyResult.fail
      else if pt.payload.bind ≠ eB then VerifyResult.fail
      else if pt.payload.exp ≤ now then VerifyResult.fail
      else if verifyEncodedPayloadSignature hmac pt.payloadEncoded pt.signatureEncoded
          secret = false then VerifyResult.fail
      else VerifyResult.ok pt.payload) = VerifyResult.fail
    by_cases h1 : pt.payload.loc ≠ eL
    · rw [if_pos h1]
    · rw [if_neg h1]
      by_cases h2 : pt.payload.sid ≠ eS
      · rw [if_pos h2]
      · rw [if_neg h2]
        by_cases h3 : pt.payload.bind ≠ eB
        · rw [if_pos h3]
        · rw [if_neg h3, if_pos hexp]

/-- Claim C1: for every valid triple and any environment providing a
signing secret, verifying the token issued by `issueNotifyAuthToken`
against the same location, session and binding succeeds with the issued
payload at any time strictly before the returned `expiresAtMs`. -/
theorem issue_then_verify_ok (jp : List Nat → Option Json)
    (hmac : JStr → JStr → List Nat) (rnd : List Nat) (now t : Int)
    (loc sid bind : JStr) (env : EnvM) (tok : JStr) (exp : Int)
    (hLoc : isValidLocationToken loc = true)
    (hSid : isSafeTokenComponent sid MAX_SESSION_ID_LENGTH = true)
    (hBind : isSafeTokenComponent bind MAX_BINDING_LENGTH = true)
    (hRndLen : rnd.length = 18) (hRndBytes : ∀ b ∈ rnd, b < 256)
    (hHmacLen : ∀ secret msg, (hmac secret msg).length = 32)
    (hHmacBytes : ∀ secret msg, ∀ b ∈ hmac secret msg, b < 256)
    (hJp : jp (utf8Encode (stringifyPayload (issuedPayload rnd now loc sid bind env))) =
      some (payloadToJson (issuedPayload rnd now loc sid bind env)))
    (hIssue : issueNotifyAuthToken hmac rnd now loc sid bind env = some (tok, exp))
    (ht : t < exp) :
    verifyNotifyAuthToken jp hmac t tok loc sid bind env =
      .ok (issuedPayload rnd now loc sid bind env) := by
  cases hsec : getSigningSecret env with
  | none =>
    rw [issueNotifyAuthToken, hsec] at hIssue
    exact absurd hIssue (by simp)
  | some signingSecret =>
    have hJti : isSafeTokenComponent (bytesToBase64Url rnd) MAX_SESSION_ID_LENGTH = true :=
      bytesToBase64Url_isSafeTokenComponent rnd hRndBytes
        (by intro hn; rw [hn] at hRndLen; simp at hRndLen) (by omega)
    rw [issueNotifyAuthToken, hsec] at hIssue
    simp only [Option.some.injEq, Prod.mk.injEq] at hIssue
    obtain ⟨htok, hexp⟩ := hIssue
    have hsigbytes := hHmacBytes signingSecret
      (bytesToBase64Url (utf8Encode (stringifyPayload (issuedPayload rnd now loc sid bind env))))
    have hsiglen := hHmacLen signingSecret
      (bytesToBase64Url (utf8Encode (stringifyPayload (issuedPayload rnd now loc sid bind env))))
    have hsene : signEncodedPayload hmac
        (bytesToBase64Url (utf8Encode (stringifyPayload (issuedPayload rnd now loc sid bind env))))
        signingSecret ≠ [] :=
      bytesToBase64Url_ne_nil _ hsigbytes
        (by intro hn; rw [hn] at hsiglen; simp at hsiglen)
    have hsedot : '.' ∉ signEncodedPayload hmac
        (bytesToBase64Url (utf8Encode (stringifyPayload (issuedPayload rnd now loc sid bind env))))
        signingSecret :=
      bytesToBase64Url_no_dot _ hsigbytes
    have hparse := parseNotifyAuthToken_issued jp (issuedPayload rnd now loc sid bind env)
      (signEncodedPayload hmac
        (bytesToBase64Url (utf8Encode (stringifyPayload (issuedPayload rnd now loc sid bind env))))
        signingSecret)
      hLoc hSid hJti hBind hJp hsene hsedot
    have htok' : bytesToBase64Url
        (utf8Encode (stringifyPayload (issuedPayload rnd now loc sid bind env))) ++
        '.' :: signEncodedPayload hmac
          (bytesToBase64Url (utf8Encode (stringifyPayload (issuedPayload rnd now loc sid bind env))))
          signingSecret = tok := htok
    have hexplt : t < (issuedPayload rnd now loc sid bind env).exp := by
      show t < now + getNotifyAuthTtlSeconds env * 1000
      have h1 : now + getNotifyAuthTtlSeconds env * 1000 = exp := hexp
      omega
    have hsig : verifyEncodedPayloadSignature hmac
        (bytesToBase64Url (utf8Encode (stringifyPayload (issuedPayload rnd now loc sid bind env))))
        (signEncodedPayload hmac
          (bytesToBase64Url (utf8Encode (stringifyPayload (issuedPayload rnd now loc sid bind env))))
          signingSecret) signingSecret = true := by
      unfold verifyEncodedPayloadSignature signEncodedPayload
      rw [base64UrlToBytes_bytesToBase64Url _ hsigbytes]
      exact beq_self_eq_true _
    exact verifyNotifyAuthToken_ok jp hmac t tok env signingSecret _ _
      (issuedPayload rnd now loc sid bind env) hsec (htok' ▸ hparse) hexplt hsig

/-- Claim C3: verification of an issued token fails once the current time
has reached the token's `expiresAtMs`, boundary included (`exp <= now` is
the rejection condition), whatever location, session and binding it is
checked against. -/
theorem verify_fails_at_expiry (jp : List Nat → Option Json)
    (hmac : JStr → JStr → List Nat) (rnd : List Nat) (now t : Int)
    (loc sid bind : JStr) (env : EnvM) (tok : JStr) (exp : Int)
    (hLoc : isValidLocationToken loc = true)
    (hSid : isSafeTokenComponent sid MAX_SESSION_ID_LENGTH = true)
    (hBind : isSafeTokenComponent bind MAX_BINDING_LENGTH = true)
    (hRndLen : rnd.length = 18) (hRndBytes : ∀ b ∈ rnd, b < 256)
    (hHmacLen : ∀ secret msg, (hmac secret msg).length = 32)
    (hHmacBytes : ∀ secret msg, ∀ b ∈ hmac secret msg, b < 256)
    (hJp : jp (utf8Encode (stringifyPayload (issuedPayload rnd now loc sid bind env))) =
      some (payloadToJson (issuedPayload rnd now loc sid bind env)))
    (hIssue : issueNotifyAuthToken hmac rnd now loc sid bind env = some (tok, exp))
    (ht : exp ≤ t) :
    ∀ eL eS eB, verifyNotifyAuthToken jp hmac t tok eL eS eB env = .fail := by
  cases hsec : getSigningSecret env with
  | none =>
    rw [issueNotifyAuthToken, hsec] at hIssue
    exact absurd hIssue (by simp)
  | some signingSecret =>
    have hJti : isSafeTokenComponent (bytesToBase64Url rnd) MAX_SESSION_ID_LENGTH = true :=
      bytesToBase64Url_isSafeTokenComponent rnd hRndBytes
        (by intro hn; rw [hn] at hRndLen; simp at hRndLen) (by omega)
    rw [issueNotifyAuthToken, hsec] at hIssue
    simp only [Option.some.injEq, Prod.mk.injEq] at hIssue
    obtain ⟨htok, hexp⟩ := hIssue
    have hsigbytes := hHmacBytes signingSecret
      (bytesToBase64Url (utf8Encode (stringifyPayload (issuedPayload rnd now loc sid bind env))))
    have hsiglen := hHmacLen signingSecret
      (bytesToBase64Url (utf8Encode (stringifyPayload (issuedPayload rnd now loc sid bind env))))
    have hsene : signEncodedPayload hmac
        (bytesToBase64Url (utf8Encode (stringifyPayload (issuedPayload rnd now loc sid bind env))))
        signingSecret ≠ [] :=
      bytesToBase64Url_ne_nil _ hsigbytes
        (by intro hn; rw [hn] at hsiglen; simp at hsiglen)
    have hsedot : '.' ∉ signEncodedPayload hmac
        (bytesToBase64Url (utf8Encode (stringifyPayload (issuedPayload rnd now loc sid bind env))))
        signingSecret :=
      bytesToBase64Url_no_dot _ hsigbytes
    have hparse := parseNotifyAuthToken_issued jp (issuedPayload rnd now loc sid bind env)
      (signEncodedPayload hmac
        (bytesToBase64Url (utf8Encode (stringifyPayload (issuedPayload rnd now loc sid bind env))))
        signingSecret)
      hLoc hSid hJti hBind hJp hsene hsedot
    have htok' : bytesToBase64Url
        (utf8Encode (stringifyPayload (issuedPayload rnd now loc sid bind env))) ++
        '.' :: signEncodedPayload hmac
          (bytesToBase64Url (utf8Encode (stringifyPayload (issuedPayload rnd now loc sid bind env))))
          signingSecret = tok := htok
    have hexpired : (issuedPayload rnd now loc sid bind env).exp ≤ t := by
      show now + getNotifyAuthTtlSeconds env * 1000 ≤ t
      have h1 : now + getNotifyAuthTtlSeconds env * 1000 = exp := hexp
      omega
    exact verifyNotifyAuthToken_expired jp hmac t tok env _ (htok' ▸ hparse) hexpired

/-- Claim C6: whenever `parseNotifyAuthToken` returns a payload, the token
had exactly two non-empty dot-separated segments, the payload segment
decoded and JSON-parsed to an object, every field passed its type,
presence, pattern and length-bound check, and the returned payload's
fields satisfy their format constraints; consequently any input violating
one of these conditions yields `none` (the function is total by
construction — exceptions of `atob`/`JSON.parse` are the `none` cases of
their models). -/
theorem parseNotifyAuthToken_sound (jp : List Nat → Option Json) (tok : JStr)
    (pt : ParsedToken) (hp : parseNotifyAuthToken jp tok = some pt) :
    splitOnChar '.' tok = [pt.payloadEncoded, pt.signatureEncoded] ∧
    pt.payloadEncoded ≠ [] ∧ pt.signatureEncoded ≠ [] ∧
    (∃ payloadBytes payloadValue,
      base64UrlToBytes pt.payloadEncoded = some payloadBytes ∧
      jp payloadBytes = some payloadValue ∧
      isObjectRecord payloadValue = true ∧
      payloadValue.getField (jstr "v") = some (.num 1) ∧
      payloadValue.getField (jstr "loc") = some (.str pt.payload.loc) ∧
      payloadValue.getField (jstr "exp") = some (.num pt.payload.exp) ∧
      payloadValue.getField (jstr "sid") = some (.str pt.payload.sid) ∧
      payloadValue.getField (jstr "jti") = some (.str pt.payload.jti) ∧
      payloadValue.getField (jstr "bind") = some (.str pt.payload.bind)) ∧
    isValidLocationToken pt.payload.loc = true ∧
    isSafeTokenComponent pt.payload.sid MAX_SESSION_ID_LENGTH = true ∧
    isSafeTokenComponent pt.payload.jti MAX_SESSION_ID_LENGTH = true ∧
    isSafeTokenComponent pt.payload.bind MAX_BINDING_LENGTH = true := by
  unfold parseNotifyAuthToken at hp
  split at hp
  · next payloadEncoded signatureEncoded heqsplit =>
    split at hp
    · exact absurd hp (by simp)
    · next hem =>
      split at hp
      · exact absurd hp (by simp)
      · next payloadBytes heqdec =>
        split at hp
        · exact absurd hp (by simp)
        · next payloadValue heqjp =>
          split at hp
          · exact absurd hp (by simp)
          · next hobj =>
            split at hp
            · next loc exp sid jti bind heqv heqloc heqexp heqsid heqjti heqbind =>
              split at hp
              · next hvalid =>
                rw [Option.some.injEq] at hp
                subst hp
                rw [Bool.and_eq_true, Bool.and_eq_true, Bool.and_eq_true] at hvalid
                obtain ⟨⟨⟨hvloc, hvsid⟩, hvjti⟩, hvbind⟩ := hvalid
                rw [Bool.or_eq_true, List.isEmpty_iff, List.isEmpty_iff] at hem
                push_neg at hem
                refine ⟨heqsplit, hem.1, hem.2,
                  ⟨payloadBytes, payloadValue, heqdec, heqjp, ?_, heqv, heqloc, heqexp,
                    heqsid, heqjti, heqbind⟩, hvloc, hvsid, hvjti, hvbind⟩
                cases hiso : isObjectRecord payloadValue
                · exact absurd hiso hobj
                · rfl
              · exact absurd hp (by simp)
            · exact absurd hp (by simp)
  · exact absurd hp (by simp)

theorem wJp_eval : wJp (utf8Encode (stringifyPayload wPayload)) =
    some (payloadToJson wPayload) := by
  unfold wJp
  rw [if_pos rfl]

theorem wHmac_len : ∀ secret msg, (wHmac secret msg).length = 32 :=
  fun _ _ => show (List.range 32).length = 32 from by decide

theorem wHmac_bytes : ∀ secret msg, ∀ b ∈ wHmac secret msg, b < 256 :=
  fun _ _ => show ∀ b ∈ List.range 32, b < 256 from by decide

set_option maxRecDepth 200000 in
/-- Witness for C1 at a concrete triple, environment and clock. -/
theorem issue_then_verify_ok_witness :
    issueNotifyAuthToken wHmac wRnd 0 wLoc wSid wBind wEnv = some (wTok, 600000) ∧
    (599999 : Int) < 600000 ∧
    verifyNotifyAuthToken wJp wHmac 599999 wTok wLoc wSid wBind wEnv = .ok wPayload :=
  ⟨by decide, by decide,
    issue_then_verify_ok wJp wHmac wRnd 0 599999 wLoc wSid wBind wEnv wTok 600000
      (by decide) (by decide) (by decide) (by decide) (by decide)
      wHmac_len wHmac_bytes wJp_eval (by decide) (by decide)⟩

set_option maxRecDepth 200000 in
/-- Witness for C3 at the expiry boundary (`now = expiresAtMs`). -/
theorem verify_fails_at_expiry_witness :
    issueNotifyAuthToken wHmac wRnd 0 wLoc wSid wBind wEnv = some (wTok, 600000) ∧
    (600000 : Int) ≤ 600000 ∧
    verifyNotifyAuthToken wJp wHmac 600000 wTok wLoc wSid wBind wEnv = .fail :=
  ⟨by decide, by decide,
    verify_fails_at_expiry wJp wHmac wRnd 0 600000 wLoc wSid wBind wEnv wTok 600000
      (by decide) (by decide) (by decide) (by decide) (by decide)
      wHmac_len wHmac_bytes wJp_eval (by decide) (by decide)
      wLoc wSid wBind⟩

set_option maxRecDepth 200000 in
/-- Witness for C6 at a concrete parsed token. -/
theorem parseNotifyAuthToken_sound_witness :
    parseNotifyAuthToken wJp wTok =
      some ⟨bytesToBase64Url (utf8Encode (stringifyPayload wPayload)),
        bytesToBase64Url (List.range 32), wPayload⟩ ∧
    isValidLocationToken wPayload.loc = true ∧
    isSafeTokenComponent wPayload.jti MAX_SESSION_ID_LENGTH = true := by
  have hp : parseNotifyAuthToken wJp wTok =
      some ⟨bytesToBase64Url (utf8Encode (stringifyPayload wPayload)),
        bytesToBase64Url (List.range 32), wPayload⟩ := by decide
  exact ⟨hp, (parseNotifyAuthToken_sound wJp wTok _ hp).2.2.2.2.1,
    (parseNotifyAuthToken_sound wJp wTok _ hp).2.2.2.2.2.2.1⟩

/-! ## Association-list lemmas -/

theorem alGet_alSet_self {α : Type} (m : List (JStr × α)) (k : JStr) (v : α) :
    alGet (alSet m k v) k = some v := by
  induction m with
  | nil => simp [alGet, alSet, List.find?]
  | cons kv rest ih =>
    by_cases h : kv.1 == k
    · simp only [alSet, h, if_true]
      simp [alGet, List.find?]
    · simp only [alSet]
      rw [if_neg (by simp_all)]
      simp only [alGet, List.find?, h]
      exact ih

theorem alGet_alSet_ne {α : Type} (m : List (JStr × α)) (k k' : JStr) (v : α)
    (h : k' ≠ k) : alGet (alSet m k v) k' = alGet m k' := by
  induction m with
  | nil =>
    simp only [alSet, alGet, List.find?]
    rw [show ((k, v).1 == k') = false by simp [h.symm]]
  | cons kv rest ih =>
    by_cases hk : kv.1 == k
    · simp only [alSet, hk, if_true]
      simp only [alGet, List.find?]
      rw [show ((k, v).1 == k') = false by simp [h.symm]]
      have hkv : (kv.1 == k') = false := by
        have h1 : kv.1 = k := by simpa using hk
        simp [h1, h.symm]
      rw [hkv]
    · simp only [alSet]
      rw [if_neg (by simp_all)]
      simp only [alGet, List.find?]
      cases hkv : kv.1 == k'
      · exact ih
      · rfl

theorem alGet_filter {α : Type} (m : List (JStr × α)) (p : JStr × α → Bool)
    (k : JStr) (v : α) (h : alGet m k = some v) (hp : p (k, v) = true) :
    alGet (m.filter p) k = some v := by
  induction m with
  | nil => simp [alGet, List.find?] at h
  | cons kv rest ih =>
    by_cases hk : kv.1 == k
    · have hv : kv.2 = v := by
        simp only [alGet, List.find?, hk] at h
        simpa using h
      have hkv : kv = (k, v) := by
        have h1 : kv.1 = k := by simpa using hk
        cases kv
        simp_all
      rw [hkv, List.filter_cons, hp]
      simp [alGet, List.find?]
    · have h' : alGet rest k = some v := by
        simpa only [alGet, List.find?, hk] using h
      rw [List.filter_cons]
      cases hpkv : p kv
      · exact ih h'
      · simp only [alGet, List.find?, hk]
        exact ih h'

theorem alGet_alDelete_ne {α : Type} (m : List (JStr × α)) (k k' : JStr)
    (h : k' ≠ k) : alGet (alDelete m k) k' = alGet m k' := by
  induction m with
  | nil => rfl
  | cons kv rest ih =>
    rw [alDelete, List.filter_cons]
    cases hkv : !(kv.1 == k)
    · have h1 : kv.1 = k := by simp at hkv; simpa using hkv
      have h2 : (kv.1 == k') = false := by simp [h1, h.symm]
      rw [show alGet (kv :: rest) k' = alGet rest k' by simp [alGet, List.find?, h2]]
      exact ih
    · simp only [alGet, List.find?]
      cases hk' : kv.1 == k'
      · exact ih
      · rfl

theorem alGet_cleanup (m : UsedIds) (k : JStr) (e now : Int)
    (h : alGet m k = some e) (he : ¬ e ≤ now) :
    alGet (cleanupUsedAuthTokenIds now m) k = some e := by
  unfold cleanupUsedAuthTokenIds
  exact alGet_filter m _ k e h (by simp [he])

/-- Membership with expiry at least `exp` survives one guard call whose
clock is before `exp`, as long as a remember on the same id does not lower
the expiry. -/
theorem applyGuardOp_keeps (tok : JStr) (exp t : Int) (op : GuardOp) (st : UsedIds)
    (ht : t < exp)
    (hnow : op.now ≤ t)
    (hrem : ∀ e' n', op = .rem tok e' n' → exp ≤ e')
    (hinv : ∃ e, alGet st tok = some e ∧ exp ≤ e) :
    ∃ e, alGet (applyGuardOp op st) tok = some e ∧ exp ≤ e := by
  obtain ⟨e, hget, hexp⟩ := hinv
  cases op with
  | rem tid e' n' =>
    simp only [applyGuardOp, rememberUsedAuthToken]
    by_cases hle : e' ≤ n'
    · rw [if_pos hle]
      exact ⟨e, hget, hexp⟩
    · rw [if_neg hle]
      have hn' : n' ≤ t := hnow
      by_cases htid : tid = tok
      · subst htid
        have hee' : exp ≤ e' := hrem e' n' rfl
        have hset : alGet (alSet st tid e') tid = some e' := alGet_alSet_self st tid e'
        by_cases hsz : alSize (alSet st tid e') > MAX_USED_AUTH_TOKEN_IDS
        · rw [if_pos hsz]
          exact ⟨e', alGet_cleanup _ _ _ _ hset hle, hee'⟩
        · rw [if_neg hsz]
          exact ⟨e', hset, hee'⟩
      · have hset : alGet (alSet st tid e') tok = some e := by
          rw [alGet_alSet_ne st tid tok e' (fun h => htid h.symm)]
          exact hget
        by_cases hsz : alSize (alSet st tid e') > MAX_USED_AUTH_TOKEN_IDS
        · rw [if_pos hsz]
          refine ⟨e, alGet_cleanup _ _ _ _ hset ?_, hexp⟩
          omega
        · rw [if_neg hsz]
          exact ⟨e, hset, hexp⟩
  | chk tid n' =>
    simp only [applyGuardOp, isAuthTokenReplay]
    cases hg : alGet st tid with
    | none => exact ⟨e, hget, hexp⟩
    | some e'' =>
      show ∃ e, alGet (if e'' = 0 then ((false, st) : Bool × UsedIds)
        else if e'' ≤ n' then (false, alDelete st tid) else (true, st)).2 tok =
          some e ∧ exp ≤ e
      by_cases h0 : e'' = 0
      · rw [if_pos h0]
        exact ⟨e, hget, hexp⟩
      · rw [if_neg h0]
        by_cases hle : e'' ≤ n'
        · rw [if_pos hle]
          by_cases htid : tid = tok
          · subst htid
            rw [hget] at hg
            have heq : e = e'' := Option.some.inj hg
            have hn' : n' ≤ t := hnow
            exfalso
            omega
          · refine ⟨e, ?_, hexp⟩
            show alGet (alDelete st tid) tok = some e
            rw [alGet_alDelete_ne st tid tok (fun h => htid h.symm)]
            exact hget
        · rw [if_neg hle]
          exact ⟨e, hget, hexp⟩
  | cln n' =>
    have hn' : n' ≤ t := hnow
    exact ⟨e, alGet_cleanup _ _ _ _ hget (by omega), hexp⟩

theorem runGuard_keeps (tok : JStr) (exp t : Int) (ht : t < exp) :
    ∀ (ops : List GuardOp) (st : UsedIds),
    (∀ op ∈ ops, op.now ≤ t ∧ ∀ e' n', op = .rem tok e' n' → exp ≤ e') →
    (∃ e, alGet st tok = some e ∧ exp ≤ e) →
    ∃ e, alGet (runGuard ops st) tok = some e ∧ exp ≤ e
  | [], _, _, hinv => hinv
  | op :: rest, st, hops, hinv =>
    runGuard_keeps tok exp t ht rest (applyGuardOp op st)
      (fun o ho => hops o (List.mem_cons_of_mem op ho))
      (applyGuardOp_keeps tok exp t op st ht
        (hops op (List.mem_cons_self op rest)).1
        (hops op (List.mem_cons_self op rest)).2 hinv)

/-- Claim C2 (amended): once `rememberUsedAuthToken(tokenId, expiresAtMs)`
is called with `expiresAtMs` strictly in the future (non-negative clock),
every subsequent `isAuthTokenReplay(tokenId, t)` with `t < expiresAtMs`
returns `true`, regardless of interleaved remember, replay-check or
cleanup calls at intermediate times — provided every interleaved
`rememberUsedAuthToken` on the same `tokenId` carries an expiry at least
`expiresAtMs`.  (Without that proviso the claim is false: see the
counterexample.) -/
theorem replay_guard_remember_seen (tok : JStr) (exp n0 t : Int) (st0 : UsedIds)
    (ops : List GuardOp)
    (h00 : 0 ≤ n0) (h0 : n0 < exp) (hnt : n0 ≤ t) (ht : t < exp)
    (hops : ∀ op ∈ ops, op.now ≤ t ∧ ∀ e' n', op = .rem tok e' n' → exp ≤ e') :
    (isAuthTokenReplay tok t
      (runGuard ops (rememberUsedAuthToken tok exp n0 st0))).1 = true := by
  have hinit : ∃ e, alGet (rememberUsedAuthToken tok exp n0 st0) tok = some e ∧ exp ≤ e := by
    unfold rememberUsedAuthToken
    rw [if_neg (by omega)]
    have hset := alGet_alSet_self st0 tok exp
    by_cases hsz : alSize (alSet st0 tok exp) > MAX_USED_AUTH_TOKEN_IDS
    · rw [if_pos hsz]
      exact ⟨exp, alGet_cleanup _ _ _ _ hset (by omega), le_refl exp⟩
    · rw [if_neg hsz]
      exact ⟨exp, hset, le_refl exp⟩
  obtain ⟨e, hget, hexp⟩ := runGuard_keeps tok exp t ht ops _ hops hinit
  unfold isAuthTokenReplay
  rw [hget]
  show (if e = 0 then
      ((false, runGuard ops (rememberUsedAuthToken tok exp n0 st0)) : Bool × UsedIds)
    else if e ≤ t then
      (false, alDelete (runGuard ops (rememberUsedAuthToken tok exp n0 st0)) tok)
    else (true, runGuard ops (rememberUsedAuthToken tok exp n0 st0))).1 = true
  rw [if_neg (by omega), if_neg (by omega)]

/-- Counterexample to claim C2 as stated: an interleaved
`rememberUsedAuthToken` on the same token id with a smaller (still future
at its own clock) expiry overwrites the entry, after which a replay check
strictly before the original expiry returns `false`. -/
theorem replay_guard_overwrite_counterexample :
    (0 : Int) ≤ 0 ∧ (0 : Int) < 100 ∧ (0 : Int) ≤ 50 ∧ (50 : Int) < 100 ∧
    (GuardOp.rem (jstr "a") 20 10).now ≤ 50 ∧ (10 : Int) < 20 ∧
    (isAuthTokenReplay (jstr "a") 50
      (runGuard [.rem (jstr "a") 20 10]
        (rememberUsedAuthToken (jstr "a") 100 0 []))).1 = false := by
  decide

/-- Claim C10: no operation of the used-token-id set (remember with its
size-cap sweep, the replay check with its auto-evict, or the cleanup
sweep) removes an entry whose `expiresAtMs` is still in the future: an
entry that is gone after a call was expired at that call's clock. -/
theorem guard_eviction_only_expired (op : GuardOp) (st : UsedIds) (k : JStr) (e : Int)
    (hget : alGet st k = some e)
    (hafter : alGet (applyGuardOp op st) k = none) :
    e ≤ op.now := by
  by_contra hgt
  have hgt' : ¬ e ≤ op.now := hgt
  cases op with
  | rem tid e' n' =>
    simp only [applyGuardOp, rememberUsedAuthToken] at hafter
    by_cases hle : e' ≤ n'
    · rw [if_pos hle] at hafter
      rw [hget] at hafter
      exact Option.noConfusion hafter
    · rw [if_neg hle] at hafter
      by_cases htid : tid = k
      · subst htid
        have hset := alGet_alSet_self st tid e'
        by_cases hsz : alSize (alSet st tid e') > MAX_USED_AUTH_TOKEN_IDS
        · rw [if_pos hsz] at hafter
          rw [alGet_cleanup _ _ _ _ hset hle] at hafter
          exact Option.noConfusion hafter
        · rw [if_neg hsz] at hafter
          rw [hset] at hafter
          exact Option.noConfusion hafter
      · have hset : alGet (alSet st tid e') k = some e := by
          rw [alGet_alSet_ne st tid k e' (fun h => htid h.symm)]
          exact hget
        by_cases hsz : alSize (alSet st tid e') > MAX_USED_AUTH_TOKEN_IDS
        · rw [if_pos hsz] at hafter
          rw [alGet_cleanup _ _ _ _ hset (by exact hgt')] at hafter
          exact Option.noConfusion hafter
        · rw [if_neg hsz] at hafter
          rw [hset] at hafter
          exact Option.noConfusion hafter
  | chk tid n' =>
    simp only [applyGuardOp, isAuthTokenReplay] at hafter
    cases hg : alGet st tid with
    | none =>
      rw [hg] at hafter
      rw [hget] at hafter
      exact Option.noConfusion hafter
    | some e'' =>
      rw [hg] at hafter
      have hafter' : alGet (if e'' = 0 then ((false, st) : Bool × UsedIds)
          else if e'' ≤ n' then (false, alDelete st tid) else (true, st)).2 k =
            none := hafter
      by_cases h0 : e'' = 0
      · rw [if_pos h0] at hafter'
        rw [hget] at hafter'
        exact Option.noConfusion hafter'
      · rw [if_neg h0] at hafter'
        by_cases hle : e'' ≤ n'
        · rw [if_pos hle] at hafter'
          by_cases htid : tid = k
          · subst htid
            rw [hget] at hg
            have heq : e = e'' := Option.some.inj hg
            have hg2 : ¬ e ≤ n' := hgt'
            omega
          · have : alGet (alDelete st tid) k = none := hafter'
            rw [alGet_alDelete_ne st tid k (fun h => htid h.symm), hget] at this
            exact Option.noConfusion this
        · rw [if_neg hle] at hafter'
          rw [hget] at hafter'
          exact Option.noConfusion hafter'
  | cln n' =>
    simp only [applyGuardOp] at hafter
    rw [alGet_cleanup _ _ _ _ hget (by exact hgt')] at hafter
    exact Option.noConfusion hafter

/-- Witness for the amended C2: a remember followed by interleaved calls
(replay check and cleanup on other ids, remember on another id), then a
replay check before expiry. -/
theorem replay_guard_remember_seen_witness :
    (0 : Int) ≤ 0 ∧ (0 : Int) < 100 ∧ (0 : Int) ≤ 50 ∧ (50 : Int) < 100 ∧
    (isAuthTokenReplay (jstr "a") 50
      (runGuard [.chk (jstr "b") 10, .cln 20, .rem (jstr "c") 90 30]
        (rememberUsedAuthToken (jstr "a") 100 0 []))).1 = true := by
  refine ⟨by decide, by decide, by decide, by decide, ?_⟩
  apply replay_guard_remember_seen (jstr "a") 100 0 50 []
    [.chk (jstr "b") 10, .cln 20, .rem (jstr "c") 90 30]
    (by decide) (by decide) (by decide) (by decide)
  intro op hop
  simp only [List.mem_cons, List.not_mem_nil, or_false] at hop
  rcases hop with rfl | rfl | rfl
  · exact ⟨by decide, fun e' n' h => by cases h⟩
  · exact ⟨by decide, fun e' n' h => by cases h⟩
  · refine ⟨by decide, fun e' n' h => ?_⟩
    injection h with h1 h2 h3
    exact absurd h1 (by decide)

/-- Witness for C10: a cleanup at time 5 removes the entry with expiry 3,
and the theorem yields `3 ≤ 5`. -/
theorem guard_eviction_only_expired_witness :
    alGet [(jstr "a", (3 : Int))] (jstr "a") = some 3 ∧
    alGet (applyGuardOp (.cln 5) [(jstr "a", (3 : Int))]) (jstr "a") = none ∧
    (3 : Int) ≤ (GuardOp.cln 5).now :=
  ⟨by decide, by decide,
    guard_eviction_only_expired (.cln 5) [(jstr "a", (3 : Int))] (jstr "a") 3
      (by decide) (by decide)⟩

/-! ## Rate limiter lemmas -/

theorem isRateLimited_fresh (ip : JStr) (N t : Int) (st : RLState)
    (h : alGet st ip = none) :
    isRateLimited ip N t st = (false, alSet st ip ⟨1, t⟩) := by
  unfold isRateLimited
  rw [h]

theorem isRateLimited_reset (ip : JStr) (N t' c t0 : Int) (st : RLState)
    (hb : alGet st ip = some ⟨c, t0⟩) (hw : t' - t0 ≥ 60000) :
    isRateLimited ip N t' st = (false, alSet st ip ⟨1, t'⟩) := by
  unfold isRateLimited
  rw [hb]
  show (if t' - t0 ≥ RATE_LIMIT_WINDOW_MS then
      ((false, alSet st ip ⟨1, t'⟩) : Bool × RLState)
    else if c ≥ N then (true, st)
    else
      let st1 := alSet st ip ⟨c + 1, t0⟩
      let st2 := if alSize st1 > 5000 then
          st1.filter (fun kv => !(decide (t' - kv.2.startedAtMs ≥ RATE_LIMIT_WINDOW_MS)))
        else st1
      (false, st2)) = (false, alSet st ip ⟨1, t'⟩)
  have hw' : t' - t0 ≥ RATE_LIMIT_WINDOW_MS := hw
  rw [if_pos hw']

theorem isRateLimited_step (ip : JStr) (N t t0 c : Int) (st : RLState)
    (hb : alGet st ip = some ⟨c, t0⟩) (hw : t - t0 < 60000) :
    (isRateLimited ip N t st).1 = decide (N ≤ c) ∧
    alGet (isRateLimited ip N t st).2 ip =
      some ⟨if c < N then c + 1 else c, t0⟩ := by
  unfold isRateLimited
  rw [hb]
  show ((if t - t0 ≥ RATE_LIMIT_WINDOW_MS then
      ((false, alSet st ip ⟨1, t⟩) : Bool × RLState)
    else if c ≥ N then (true, st)
    else
      let st1 := alSet st ip ⟨c + 1, t0⟩
      let st2 := if alSize st1 > 5000 then
          st1.filter (fun kv => !(decide (t - kv.2.startedAtMs ≥ RATE_LIMIT_WINDOW_MS)))
        else st1
      (false, st2)).1 = decide (N ≤ c)) ∧
    alGet (if t - t0 ≥ RATE_LIMIT_WINDOW_MS then
      ((false, alSet st ip ⟨1, t⟩) : Bool × RLState)
    else if c ≥ N then (true, st)
    else
      let st1 := alSet st ip ⟨c + 1, t0⟩
      let st2 := if alSize st1 > 5000 then
          st1.filter (fun kv => !(decide (t - kv.2.startedAtMs ≥ RATE_LIMIT_WINDOW_MS)))
        else st1
      (false, st2)).2 ip = some ⟨if c < N then c + 1 else c, t0⟩
  have hwneg : ¬ (t - t0 ≥ RATE_LIMIT_WINDOW_MS) := by
    show ¬ (t - t0 ≥ 60000)
    omega
  rw [if_neg hwneg]
  by_cases hc : c ≥ N
  · rw [if_pos hc]
    constructor
    · simp [hc]
    · rw [if_neg (by omega)]
      exact hb
  · rw [if_neg hc]
    have hget1 : alGet (alSet st ip ⟨c + 1, t0⟩) ip = some ⟨c + 1, t0⟩ :=
      alGet_alSet_self st ip ⟨c + 1, t0⟩
    have hcN : (if c < N then c + 1 else c) = c + 1 := if_pos (by omega)
    rw [hcN]
    constructor
    · show false = decide (N ≤ c)
      have hnc : ¬ (N ≤ c) := by omega
      simp [hnc]
    · show alGet (if alSize (alSet st ip ⟨c + 1, t0⟩) > 5000 then
          (alSet st ip ⟨c + 1, t0⟩).filter
            (fun kv => !(decide (t - kv.2.startedAtMs ≥ RATE_LIMIT_WINDOW_MS)))
        else alSet st ip ⟨c + 1, t0⟩) ip = some ⟨c + 1, t0⟩
      by_cases hsz : alSize (alSet st ip ⟨c + 1, t0⟩) > 5000
      · rw [if_pos hsz]
        refine alGet_filter _ _ ip ⟨c + 1, t0⟩ hget1 ?_
        show (!(decide (t - t0 ≥ RATE_LIMIT_WINDOW_MS))) = true
        simp only [Bool.not_eq_true']
        exact decide_eq_false hwneg
      · rw [if_neg hsz]
        exact hget1

theorem rlRun_window (ip : JStr) (N t0 : Int) (hN : 1 ≤ N) :
    ∀ (ts : List Int) (st : RLState) (m : Int),
    1 ≤ m →
    alGet st ip = some ⟨min m N, t0⟩ →
    (∀ t ∈ ts, t - t0 < 60000) →
    (rlRun ip N ts st).1 =
      (List.range ts.length).map (fun i : Nat => decide (N ≤ m + (i : Int))) ∧
    alGet (rlRun ip N ts st).2 ip = some ⟨min (m + ts.length) N, t0⟩
  | [], st, m, _, hget, _ => ⟨rfl, by simpa using hget⟩
  | t :: ts, st, m, hm, hget, hts => by
    have hw : t - t0 < 60000 := hts t (by simp)
    obtain ⟨h1, h2⟩ := isRateLimited_step ip N t t0 (min m N) st hget hw
    have houtcome : decide (N ≤ min m N) = decide (N ≤ m) := by
      rcases le_total m N with h | h
      · rw [min_eq_left h]
      · rw [min_eq_right h]
        simp [h]
    have hbucket : (if min m N < N then min m N + 1 else min m N) = min (m + 1) N := by
      rcases le_total m N with h | h
      · rw [min_eq_left h]
        split_ifs with h2 <;> omega
      · rw [min_eq_right h]
        split_ifs with h2 <;> omega
    rw [hbucket] at h2
    obtain ⟨hrest1, hrest2⟩ := rlRun_window ip N t0 hN ts
      (isRateLimited ip N t st).2 (m + 1) (by omega) h2
      (fun x hx => hts x (by simp [hx]))
    constructor
    · show (isRateLimited ip N t st).1 :: (rlRun ip N ts (isRateLimited ip N t st).2).1 =
        (List.range (ts.length + 1)).map (fun i : Nat => decide (N ≤ m + (i : Int)))
      rw [List.range_succ_eq_map, List.map_cons, List.map_map]
      rw [h1, houtcome, hrest1]
      congr 1
      · norm_num
      · apply List.map_congr_left
        intro i _
        show decide (N ≤ m + 1 + (i : Int)) = decide (N ≤ m + (((i + 1 : Nat)) : Int))
        rw [decide_eq_decide]
        push_cast
        omega
    · show alGet (rlRun ip N ts (isRateLimited ip N t st).2).2 ip =
        some ⟨min (m + (ts.length + 1)) N, t0⟩
      rw [hrest2]
      congr 2
      push_cast
      omega

/-- Claim C7: the configured rate limit always lands in 1..60, and for a
window of requests from one IP starting fresh at `t0` with every request
within 60 seconds of `t0`, the first `N` calls return `false` and every
subsequent call returns `true`; a request at least 60 seconds after `t0`
starts a fresh window with count 1 and is admitted. -/
theorem rate_limiter_window (ip : JStr) (N t0 : Int) (ts : List Int)
    (st0 : RLState) (t' : Int)
    (hN1 : 1 ≤ N) (hN60 : N ≤ 60)
    (hfresh : alGet st0 ip = none)
    (hts : ∀ t ∈ ts, t - t0 < 60000)
    (hreset : t' - t0 ≥ 60000) :
    (∀ env, 1 ≤ getRateLimitPerMinute env ∧ getRateLimitPerMinute env ≤ 60) ∧
    (rlRun ip N (t0 :: ts) st0).1 =
      (List.range (ts.length + 1)).map (fun i : Nat => decide (N ≤ (i : Int))) ∧
    (isRateLimited ip N t' (rlRun ip N (t0 :: ts) st0).2).1 = false ∧
    alGet (isRateLimited ip N t' (rlRun ip N (t0 :: ts) st0).2).2 ip =
      some ⟨1, t'⟩ := by
  have hbounds : ∀ env, 1 ≤ getRateLimitPerMinute env ∧ getRateLimitPerMinute env ≤ 60 := by
    intro env
    unfold getRateLimitPerMinute parseBoundedInteger
    cases parseIntJS (env.notifyRateLimitPerMinute.getD []) with
    | none =>
      show 1 ≤ DEFAULT_RATE_LIMIT_PER_MINUTE ∧ DEFAULT_RATE_LIMIT_PER_MINUTE ≤ 60
      constructor <;> decide
    | some p =>
      constructor
      · exact le_min (by decide) (le_max_left 1 p)
      · exact min_le_left 60 _
  have hfirst := isRateLimited_fresh ip N t0 st0 hfresh
  have hget1 : alGet (isRateLimited ip N t0 st0).2 ip = some ⟨min 1 N, t0⟩ := by
    rw [hfirst, min_eq_left hN1]
    exact alGet_alSet_self st0 ip ⟨1, t0⟩
  obtain ⟨hrest1, hrest2⟩ := rlRun_window ip N t0 hN1 ts
    (isRateLimited ip N t0 st0).2 1 (le_refl 1) hget1 hts
  have hlist : (rlRun ip N (t0 :: ts) st0).1 =
      (List.range (ts.length + 1)).map (fun i : Nat => decide (N ≤ (i : Int))) := by
    show (isRateLimited ip N t0 st0).1 :: (rlRun ip N ts (isRateLimited ip N t0 st0).2).1 = _
    rw [List.range_succ_eq_map, List.map_cons, List.map_map, hrest1, hfirst]
    congr 1
    · show false = decide (N ≤ ((0 : Nat) : Int))
      have h0 : ¬ (N ≤ ((0 : Nat) : Int)) := by push_cast; omega
      simp [h0]
      omega
    · apply List.map_congr_left
      intro i _
      show decide (N ≤ 1 + (i : Int)) = decide (N ≤ (((i + 1 : Nat)) : Int))
      rw [decide_eq_decide]
      push_cast
      omega
  have hfinal : alGet (rlRun ip N (t0 :: ts) st0).2 ip =
      some ⟨min (1 + ts.length) N, t0⟩ := by
    show alGet (rlRun ip N ts (isRateLimited ip N t0 st0).2).2 ip = _
    exact hrest2
  have hres := isRateLimited_reset ip N t' (min (1 + ts.length) N) t0 _ hfinal hreset
  refine ⟨hbounds, hlist, ?_, ?_⟩
  · rw [hres]
  · rw [hres]
    exact alGet_alSet_self (rlRun ip N (t0 :: ts) st0).2 ip (⟨1, t'⟩ : Bucket)

/-- Witness for C7: limit 2, four requests in one window
(outcomes `[false, false, true, true]`), then a reset request. -/
theorem rate_limiter_window_witness :
    alGet ([] : RLState) (jstr "ip") = none ∧
    ((∀ env, 1 ≤ getRateLimitPerMinute env ∧ getRateLimitPerMinute env ≤ 60) ∧
     (rlRun (jstr "ip") 2 [0, 1, 2, 3] []).1 =
       (List.range 4).map (fun i : Nat => decide ((2 : Int) ≤ (i : Int))) ∧
     (isRateLimited (jstr "ip") 2 60000 (rlRun (jstr "ip") 2 [0, 1, 2, 3] []).2).1 = false ∧
     alGet (isRateLimited (jstr "ip") 2 60000
       (rlRun (jstr "ip") 2 [0, 1, 2, 3] []).2).2 (jstr "ip") = some ⟨1, 60000⟩) :=
  ⟨by decide,
    rate_limiter_window (jstr "ip") 2 0 [1, 2, 3] [] 60000
      (by decide) (by decide) (by decide) (by decide) (by decide)⟩

/-! ## Body-size guard lemmas -/

theorem readBodyLoop_le (maxBytes : Nat) :
    ∀ (chunks : List (List Nat)) (received : Nat) (acc : List Nat),
    received + (chunks.map List.length).sum ≤ maxBytes →
    readBodyLoop maxBytes chunks received acc = .value (acc ++ chunks.flatten)
  | [], r, acc, _ => by simp [readBodyLoop]
  | chunk :: rest, r, acc, h => by
    have hsum : r + chunk.length + ((rest.map List.length).sum) ≤ maxBytes := by
      simp only [List.map_cons, List.sum_cons] at h
      omega
    unfold readBodyLoop
    rw [if_neg (by omega)]
    rw [readBodyLoop_le maxBytes rest (r + chunk.length) (acc ++ chunk) hsum]
    simp

theorem readBodyLoop_over (maxBytes : Nat) :
    ∀ (chunks : List (List Nat)) (received : Nat) (acc : List Nat),
    received ≤ maxBytes →
    received + (chunks.map List.length).sum > maxBytes →
    readBodyLoop maxBytes chunks received acc = .err (jstr "Request body too large") 413
  | [], r, _, hle, hover => by
    simp only [List.map_nil, List.sum_nil, Nat.add_zero] at hover
    omega
  | chunk :: rest, r, acc, hle, hover => by
    unfold readBodyLoop
    by_cases hc : r + chunk.length > maxBytes
    · rw [if_pos hc]
    · rw [if_neg hc]
      refine readBodyLoop_over maxBytes rest (r + chunk.length) (acc ++ chunk)
        (by omega) ?_
      simp only [List.map_cons, List.sum_cons] at hover
      omega

theorem readRequestTextWithLimit_ok (req : ReqM) (chunks : List (List Nat))
    (hbody : req.bodyChunks = some chunks)
    (hsum : (chunks.map List.length).sum ≤ MAX_JSON_BODY_BYTES) :
    readRequestTextWithLimit req MAX_JSON_BODY_BYTES = .value chunks.flatten := by
  unfold readRequestTextWithLimit
  rw [hbody]
  show readBodyLoop MAX_JSON_BODY_BYTES chunks 0 [] = .value chunks.flatten
  rw [readBodyLoop_le MAX_JSON_BODY_BYTES chunks 0 [] (by omega)]
  simp

theorem readRequestTextWithLimit_over (req : ReqM) (chunks : List (List Nat))
    (hbody : req.bodyChunks = some chunks)
    (hsum : (chunks.map List.length).sum > MAX_JSON_BODY_BYTES) :
    readRequestTextWithLimit req MAX_JSON_BODY_BYTES =
      .err (jstr "Request body too large") 413 := by
  unfold readRequestTextWithLimit
  rw [hbody]
  show readBodyLoop MAX_JSON_BODY_BYTES chunks 0 [] =
    .err (jstr "Request body too large") 413
  exact readBodyLoop_over MAX_JSON_BODY_BYTES chunks 0 [] (by omega) (by omega)

theorem parseNotifyBodyRest_no413 (jp : List Nat → Option Json) (req : ReqM)
    (chunks : List (List Nat))
    (hbody : req.bodyChunks = some chunks)
    (hsum : (chunks.map List.length).sum ≤ MAX_JSON_BODY_BYTES) :
    ∀ e s, parseNotifyBodyRest jp req = .err e s → s ≠ 413 := by
  intro e s h
  unfold parseNotifyBodyRest at h
  rw [readRequestTextWithLimit_ok req chunks hbody hsum] at h
  repeat' split at h
  all_goals first
    | (rw [BodyParse.err.injEq] at h
       obtain ⟨-, rfl⟩ := h
       omega)
    | exact BodyParse.noConfusion h
    | (simp only [] at h
       repeat' split at h
       all_goals first
         | (rw [BodyParse.err.injEq] at h
            obtain ⟨-, rfl⟩ := h
            omega)
         | exact BodyParse.noConfusion h)
    | simp_all

theorem parseNotifyBody_ct_ok (jp : List Nat → Option Json) (req : ReqM)
    (hct : includesB (lowerJ (req.contentTypeHeader.getD []))
      (jstr "application/json") = true) :
    parseNotifyBody jp req =
      match readContentLength req with
      | some contentLength =>
        if contentLength > (MAX_JSON_BODY_BYTES : Int) then
          BodyParse.err (jstr "Request body too large") 413
        else parseNotifyBodyRest jp req
      | none => parseNotifyBodyRest jp req := by
  unfold parseNotifyBody
  show (if (!includesB (lowerJ (req.contentTypeHeader.getD []))
        (jstr "application/json")) = true then
      BodyParse.err (jstr "Content-Type must be application/json") 415
    else
      match readContentLength req with
      | some contentLength =>
        if contentLength > (MAX_JSON_BODY_BYTES : Int) then
          BodyParse.err (jstr "Request body too large") 413
        else parseNotifyBodyRest jp req
      | none => parseNotifyBodyRest jp req) = _
  rw [hct]
  rw [if_neg (by simp)]

/-- Claim C8: a streamed body of exactly `MAX_JSON_BODY_BYTES` (8192)
bytes is accepted by the body reader and one byte over is rejected with
413, both when the excess is declared via `Content-Length` and when it is
only detected by counting streamed bytes; a declared length of exactly the
cap is not rejected by the size guard. -/
theorem body_size_guard :
    (∀ (req : ReqM) (chunks : List (List Nat)), req.bodyChunks = some chunks →
      (chunks.map List.length).sum ≤ MAX_JSON_BODY_BYTES →
      readRequestTextWithLimit req MAX_JSON_BODY_BYTES = .value chunks.flatten) ∧
    (∀ (req : ReqM) (chunks : List (List Nat)), req.bodyChunks = some chunks →
      (chunks.map List.length).sum > MAX_JSON_BODY_BYTES →
      readRequestTextWithLimit req MAX_JSON_BODY_BYTES =
        .err (jstr "Request body too large") 413) ∧
    (∀ (jp : List Nat → Option Json) (req : ReqM) (cl : Int),
      includesB (lowerJ (req.contentTypeHeader.getD []))
        (jstr "application/json") = true →
      readContentLength req = some cl → cl > (MAX_JSON_BODY_BYTES : Int) →
      parseNotifyBody jp req = .err (jstr "Request body too large") 413) ∧
    (∀ (jp : List Nat → Option Json) (req : ReqM) (chunks : List (List Nat)),
      includesB (lowerJ (req.contentTypeHeader.getD []))
        (jstr "application/json") = true →
      readContentLength req = some (MAX_JSON_BODY_BYTES : Int) →
      req.bodyChunks = some chunks →
      (chunks.map List.length).sum ≤ MAX_JSON_BODY_BYTES →
      ∀ e s, parseNotifyBody jp req = .err e s → s ≠ 413) ∧
    (∀ (jp : List Nat → Option Json) (req : ReqM) (chunks : List (List Nat)),
      includesB (lowerJ (req.contentTypeHeader.getD []))
        (jstr "application/json") = true →
      readContentLength req = none →
      req.bodyChunks = some chunks →
      (chunks.map List.length).sum > MAX_JSON_BODY_BYTES →
      parseNotifyBody jp req = .err (jstr "Request body too large") 413) := by
  refine ⟨readRequestTextWithLimit_ok, readRequestTextWithLimit_over, ?_, ?_, ?_⟩
  · intro jp req cl hct hcl hover
    rw [parseNotifyBody_ct_ok jp req hct, hcl]
    show (if cl > (MAX_JSON_BODY_BYTES : Int) then
        BodyParse.err (jstr "Request body too large") 413
      else parseNotifyBodyRest jp req) = _
    rw [if_pos hover]
  · intro jp req chunks hct hcl hbody hsum e s h
    rw [parseNotifyBody_ct_ok jp req hct, hcl] at h
    have h' : (if (MAX_JSON_BODY_BYTES : Int) > (MAX_JSON_BODY_BYTES : Int) then
        BodyParse.err (jstr "Request body too large") 413
      else parseNotifyBodyRest jp req) = BodyParse.err e s := h
    rw [if_neg (by omega)] at h'
    exact parseNotifyBodyRest_no413 jp req chunks hbody hsum e s h'
  · intro jp req chunks hct hcl hbody hsum
    rw [parseNotifyBody_ct_ok jp req hct, hcl]
    show parseNotifyBodyRest jp req = _
    unfold parseNotifyBodyRest
    rw [readRequestTextWithLimit_over req chunks hbody hsum]

set_option maxRecDepth 200000 in
/-- Witness for C8: a single 8192-byte chunk is accepted, a single
8193-byte chunk is rejected with 413, and a declared `Content-Length`
of 8193 is rejected with 413 before reading. -/
theorem body_size_guard_witness :
    readRequestTextWithLimit { bodyChunks := some [List.replicate 8192 0] }
      MAX_JSON_BODY_BYTES = .value ([List.replicate 8192 0].flatten) ∧
    readRequestTextWithLimit { bodyChunks := some [List.replicate 8193 0] }
      MAX_JSON_BODY_BYTES = .err (jstr "Request body too large") 413 ∧
    parseNotifyBody wJp
      { contentTypeHeader := some (jstr "application/json")
        contentLengthHeader := some (jstr "8193") } =
      .err (jstr "Request body too large") 413 :=
  ⟨body_size_guard.1 _ _ rfl
    (by simp only [List.map_cons, List.map_nil, List.sum_cons, List.sum_nil,
      List.length_replicate, MAX_JSON_BODY_BYTES]; decide),
   body_size_guard.2.1 _ _ rfl
    (by simp only [List.map_cons, List.map_nil, List.sum_cons, List.sum_nil,
      List.length_replicate, MAX_JSON_BODY_BYTES]; decide),
   body_size_guard.2.2.1 wJp _ 8193 (by decide) (by decide) (by decide)⟩

/-! ## Verify-order and handler-evaluation lemmas -/

/-- With the secret present and the token parsed, `verifyNotifyAuthToken`
is the source's check chain in source order. -/
theorem verifyNotifyAuthToken_char (jp : List Nat → Option Json)
    (hmac : JStr → JStr → List Nat) (now : Int) (tok eL eS eB : JStr)
    (env : EnvM) (secret : JStr) (pt : ParsedToken)
    (hsec : getSigningSecret env = some secret)
    (hparse : parseNotifyAuthToken jp tok = some pt) :
    verifyNotifyAuthToken jp hmac now tok eL eS eB env =
      (if pt.payload.loc ≠ eL then .fail
      else if pt.payload.sid ≠ eS then .fail
      else if pt.payload.bind ≠ eB then .fail
      else if pt.payload.exp ≤ now then .fail
      else if verifyEncodedPayloadSignature hmac pt.payloadEncoded
          pt.signatureEncoded secret = false then .fail
      else .ok pt.payload) := by
  unfold verifyNotifyAuthToken
  rw [hsec, hparse]

/-- An unparseable token fails verification outright. -/
theorem verifyNotifyAuthToken_parse_none (jp : List Nat → Option Json)
    (hmac : JStr → JStr → List Nat) (now : Int) (tok eL eS eB : JStr)
    (env : EnvM) (hparse : parseNotifyAuthToken jp tok = none) :
    verifyNotifyAuthToken jp hmac now tok eL eS eB env = .fail := by
  unfold verifyNotifyAuthToken
  cases hsec : getSigningSecret env with
  | none => rfl
  | some secret => rw [hparse]

/-- Inversion: a successful verification pins down every check. -/
theorem verifyNotifyAuthToken_ok_inv (jp : List Nat → Option Json)
    (hmac : JStr → JStr → List Nat) (now : Int) (tok eL eS eB : JStr)
    (env : EnvM) (p : NotifyAuthPayload)
    (h : verifyNotifyAuthToken jp hmac now tok eL eS eB env = .ok p) :
    ∃ secret pt, getSigningSecret env = some secret ∧
      parseNotifyAuthToken jp tok = some pt ∧ pt.payload = p ∧
      p.loc = eL ∧ p.sid = eS ∧ p.bind = eB ∧ now < p.exp ∧
      verifyEncodedPayloadSignature hmac pt.payloadEncoded
        pt.signatureEncoded secret = true := by
  cases hsec : getSigningSecret env with
  | none =>
    unfold verifyNotifyAuthToken at h
    rw [hsec] at h
    exact VerifyResult.noConfusion h
  | some secret =>
    cases hparse : parseNotifyAuthToken jp tok with
    | none =>
      rw [verifyNotifyAuthToken_parse_none jp hmac now tok eL eS eB env hparse] at h
      exact VerifyResult.noConfusion h
    | some pt =>
      rw [verifyNotifyAuthToken_char jp hmac now tok eL eS eB env secret pt hsec hparse] at h
      by_cases h1 : pt.payload.loc ≠ eL
      · rw [if_pos h1] at h; exact VerifyResult.noConfusion h
      rw [if_neg h1] at h
      by_cases h2 : pt.payload.sid ≠ eS
      · rw [if_pos h2] at h; exact VerifyResult.noConfusion h
      rw [if_neg h2] at h
      by_cases h3 : pt.payload.bind ≠ eB
      · rw [if_pos h3] at h; exact VerifyResult.noConfusion h
      rw [if_neg h3] at h
      by_cases h4 : pt.payload.exp ≤ now
      · rw [if_pos h4] at h; exact VerifyResult.noConfusion h
      rw [if_neg h4] at h
      by_cases h5 : verifyEncodedPayloadSignature hmac pt.payloadEncoded
          pt.signatureEncoded secret = false
      · rw [if_pos h5] at h; exact VerifyResult.noConfusion h
      rw [if_neg h5] at h
      have hp : pt.payload = p := VerifyResult.ok.inj h
      have h5' : verifyEncodedPayloadSignature hmac pt.payloadEncoded
          pt.signatureEncoded secret = true := by
        cases hb : verifyEncodedPayloadSignature hmac pt.payloadEncoded
          pt.signatureEncoded secret
        · exact absurd hb h5
        · rfl
      refine ⟨secret, pt, rfl, rfl, hp, ?_, ?_, ?_, ?_, h5'⟩
      · exact hp ▸ not_not.mp h1
      · exact hp ▸ not_not.mp h2
      · exact hp ▸ not_not.mp h3
      · exact hp ▸ not_le.mp h4

/-- A token verifying at one clock verifies at any clock before its expiry
(the checks other than expiry are clock-independent). -/
theorem verifyNotifyAuthToken_time_shift (jp : List Nat → Option Json)
    (hmac : JStr → JStr → List Nat) (n1 n2 : Int) (tok eL eS eB : JStr)
    (env : EnvM) (p : NotifyAuthPayload)
    (h : verifyNotifyAuthToken jp hmac n1 tok eL eS eB env = .ok p)
    (h2 : n2 < p.exp) :
    verifyNotifyAuthToken jp hmac n2 tok eL eS eB env = .ok p := by
  obtain ⟨secret, pt, hsec, hparse, hp, hl, hs, hb, -, hsig⟩ :=
    verifyNotifyAuthToken_ok_inv jp hmac n1 tok eL eS eB env p h
  rw [verifyNotifyAuthToken_char jp hmac n2 tok eL eS eB env secret pt hsec hparse, hp]
  rw [if_neg (not_not_intro hl), if_neg (not_not_intro hs), if_neg (not_not_intro hb),
    if_neg (not_le.mpr h2), if_neg (by rw [hsig]; simp)]

/-- `rememberUsedAuthToken` with a future expiry stores the expiry under
the token id on every path (including the size-cap sweep). -/
theorem alGet_remember_self (tok : JStr) (exp now : Int) (m : UsedIds)
    (h : ¬ exp ≤ now) :
    alGet (rememberUsedAuthToken tok exp now m) tok = some exp := by
  unfold rememberUsedAuthToken
  rw [if_neg h]
  show alGet (if alSize (alSet m tok exp) > MAX_USED_AUTH_TOKEN_IDS then
    cleanupUsedAuthTokenIds now (alSet m tok exp) else alSet m tok exp) tok = some exp
  split
  · exact alGet_cleanup (alSet m tok exp) tok exp now (alGet_alSet_self m tok exp) h
  · exact alGet_alSet_self m tok exp

/-- A stored, non-zero, unexpired token id makes `isAuthTokenReplay` report
a replay and leave the map unchanged. -/
theorem isAuthTokenReplay_hit (tok : JStr) (now e : Int) (m : UsedIds)
    (hget : alGet m tok = some e) (h0 : e ≠ 0) (hgt : ¬ e ≤ now) :
    isAuthTokenReplay tok now m = (true, m) := by
  unfold isAuthTokenReplay
  rw [hget]
  show (if e = 0 then (false, m) else if e ≤ now then (false, alDelete m tok)
    else (true, m)) = (true, m)
  rw [if_neg h0, if_neg hgt]

theorem dispatchTail_abort (e : JsErr) (st : SrvState) (h : isAbortError e = true) :
    dispatchTail (.thrown e) st =
      ⟨⟨504, errBody (jstr "Notification timeout. Please try again.")⟩, st, []⟩ := by
  show (if isAbortError e = true then
      (⟨⟨504, errBody (jstr "Notification timeout. Please try again.")⟩, st, []⟩ : PostOut)
    else ⟨⟨502, errBody (jstr "Notification request failed. Please try again.")⟩,
      st, [.pushoverRequestFailed]⟩) =
    ⟨⟨504, errBody (jstr "Notification timeout. Please try again.")⟩, st, []⟩
  rw [if_pos h]

theorem dispatchTail_failed (e : JsErr) (st : SrvState) (h : isAbortError e = false) :
    dispatchTail (.thrown e) st =
      ⟨⟨502, errBody (jstr "Notification request failed. Please try again.")⟩,
        st, [.pushoverRequestFailed]⟩ := by
  show (if isAbortError e = true then
      (⟨⟨504, errBody (jstr "Notification timeout. Please try again.")⟩, st, []⟩ : PostOut)
    else ⟨⟨502, errBody (jstr "Notification request failed. Please try again.")⟩,
      st, [.pushoverRequestFailed]⟩) =
    ⟨⟨502, errBody (jstr "Notification request failed. Please try again.")⟩,
      st, [.pushoverRequestFailed]⟩
  rw [if_neg (by rw [h]; simp)]

theorem dispatchTail_resp_bad (status : Int) (providerBody : JStr) (st : SrvState)
    (h : respOk status = false) :
    dispatchTail (.resp status providerBody) st =
      ⟨⟨502, errBody (jstr "Notification provider rejected request.")⟩, st,
        [.pushoverRejected status (takeJ 500 providerBody)]⟩ := by
  show (if respOk status = false then
      (⟨⟨502, errBody (jstr "Notification provider rejected request.")⟩, st,
        [.pushoverRejected status (takeJ 500 providerBody)]⟩ : PostOut)
    else ⟨⟨200, okBody⟩, st, []⟩) =
    ⟨⟨502, errBody (jstr "Notification provider rejected request.")⟩, st,
      [.pushoverRejected status (takeJ 500 providerBody)]⟩
  rw [if_pos h]

theorem dispatchTail_resp_ok (status : Int) (providerBody : JStr) (st : SrvState)
    (h : respOk status = true) :
    dispatchTail (.resp status providerBody) st = ⟨⟨200, okBody⟩, st, []⟩ := by
  show (if respOk status = false then
      (⟨⟨502, errBody (jstr "Notification provider rejected request.")⟩, st,
        [.pushoverRejected status (takeJ 500 providerBody)]⟩ : PostOut)
    else ⟨⟨200, okBody⟩, st, []⟩) = ⟨⟨200, okBody⟩, st, []⟩
  rw [if_neg (by rw [h]; simp)]

/-- A request passing every admission gate reaches the dispatch tail with
the rate bucket updated and the token id remembered. -/
theorem onRequestPost_authorized (uo dUC : JStr → Option JStr)
    (jp : List Nat → Option Json) (hmac : JStr → JStr → List Nat)
    (sha : JStr → List Nat) (req : ReqM) (env : EnvM) (now : Int)
    (catalog : Option (List JStr)) (pushover : FetchOut) (st : SrvState)
    (o secret : JStr) (bks : RLState) (nb : NotifyBodyM)
    (payload : NotifyAuthPayload) (used : UsedIds)
    (ho : getAllowedOriginForRequest uo req env = some o)
    (hmeta : violatesFetchMetadataPolicy req = false)
    (hcreds : (env.pushoverAppToken.isEmpty || env.pushoverUserKey.isEmpty) = false)
    (hsec : getSigningSecret env = some secret)
    (hrl : isRateLimited (getClientIp req) (getRateLimitPerMinute env) now
      st.buckets = (false, bks))
    (hbody : parseNotifyBody jp req = .ok nb)
    (hloc : validateKnownLocationToken nb.locationToken env catalog = .ok)
    (hsid : isSafeTokenComponent
      (trimJ ((getCookieValue dUC req SESSION_COOKIE_NAME).getD []))
      MAX_SESSION_ID_LENGTH = true)
    (hverify : verifyNotifyAuthToken jp hmac now nb.authToken nb.locationToken
      (trimJ ((getCookieValue dUC req SESSION_COOKIE_NAME).getD []))
      (getClientBinding sha req) env = .ok payload)
    (hreplay : isAuthTokenReplay payload.jti now
      (cleanupUsedAuthTokenIds now st.usedIds) = (false, used)) :
    onRequestPost uo dUC jp hmac sha req env now catalog pushover st =
      dispatchTail pushover
        ⟨bks, rememberUsedAuthToken payload.jti payload.exp now used⟩ := by
  unfold onRequestPost
  rw [ho, hsec]
  simp only [hmeta, hcreds, hrl, hbody, hloc, hsid, hverify, hreplay,
    Bool.false_eq_true, Bool.true_eq_false, if_false, if_true, ite_false, ite_true]

/-- A request passing every gate whose token id is already remembered is
answered with the distinct 409 replay response. -/
theorem onRequestPost_replay (uo dUC : JStr → Option JStr)
    (jp : List Nat → Option Json) (hmac : JStr → JStr → List Nat)
    (sha : JStr → List Nat) (req : ReqM) (env : EnvM) (now : Int)
    (catalog : Option (List JStr)) (pushover : FetchOut) (st : SrvState)
    (o secret : JStr) (bks : RLState) (nb : NotifyBodyM)
    (payload : NotifyAuthPayload) (used : UsedIds)
    (ho : getAllowedOriginForRequest uo req env = some o)
    (hmeta : violatesFetchMetadataPolicy req = false)
    (hcreds : (env.pushoverAppToken.isEmpty || env.pushoverUserKey.isEmpty) = false)
    (hsec : getSigningSecret env = some secret)
    (hrl : isRateLimited (getClientIp req) (getRateLimitPerMinute env) now
      st.buckets = (false, bks))
    (hbody : parseNotifyBody jp req = .ok nb)
    (hloc : validateKnownLocationToken nb.locationToken env catalog = .ok)
    (hsid : isSafeTokenComponent
      (trimJ ((getCookieValue dUC req SESSION_COOKIE_NAME).getD []))
      MAX_SESSION_ID_LENGTH = true)
    (hverify : verifyNotifyAuthToken jp hmac now nb.authToken nb.locationToken
      (trimJ ((getCookieValue dUC req SESSION_COOKIE_NAME).getD []))
      (getClientBinding sha req) env = .ok payload)
    (hreplay : isAuthTokenReplay payload.jti now
      (cleanupUsedAuthTokenIds now st.usedIds) = (true, used)) :
    onRequestPost uo dUC jp hmac sha req env now catalog pushover st =
      ⟨⟨409, errBody (jstr "Replay detected. Request a new auth token.")⟩,
        ⟨bks, used⟩, []⟩ := by
  unfold onRequestPost
  rw [ho, hsec]
  simp only [hmeta, hcreds, hrl, hbody, hloc, hsid, hverify, hreplay,
    Bool.false_eq_true, Bool.true_eq_false, if_false, if_true, ite_false, ite_true]

/-- A request passing the gates before verification whose token fails
verification is answered with the generic 401. -/
theorem onRequestPost_unauthorized (uo dUC : JStr → Option JStr)
    (jp : List Nat → Option Json) (hmac : JStr → JStr → List Nat)
    (sha : JStr → List Nat) (req : ReqM) (env : EnvM) (now : Int)
    (catalog : Option (List JStr)) (pushover : FetchOut) (st : SrvState)
    (o secret : JStr) (bks : RLState) (nb : NotifyBodyM)
    (ho : getAllowedOriginForRequest uo req env = some o)
    (hmeta : violatesFetchMetadataPolicy req = false)
    (hcreds : (env.pushoverAppToken.isEmpty || env.pushoverUserKey.isEmpty) = false)
    (hsec : getSigningSecret env = some secret)
    (hrl : isRateLimited (getClientIp req) (getRateLimitPerMinute env) now
      st.buckets = (false, bks))
    (hbody : parseNotifyBody jp req = .ok nb)
    (hloc : validateKnownLocationToken nb.locationToken env catalog = .ok)
    (hsid : isSafeTokenComponent
      (trimJ ((getCookieValue dUC req SESSION_COOKIE_NAME).getD []))
      MAX_SESSION_ID_LENGTH = true)
    (hverify : verifyNotifyAuthToken jp hmac now nb.authToken nb.locationToken
      (trimJ ((getCookieValue dUC req SESSION_COOKIE_NAME).getD []))
      (getClientBinding sha req) env = .fail) :
    onRequestPost uo dUC jp hmac sha req env now catalog pushover st =
      ⟨⟨401, errBody (jstr "Unauthorized request")⟩, ⟨bks, st.usedIds⟩, []⟩ := by
  unfold onRequestPost
  rw [ho, hsec]
  simp only [hmeta, hcreds, hrl, hbody, hloc, hsid, hverify,
    Bool.false_eq_true, Bool.true_eq_false, if_false, if_true, ite_false, ite_true]

/-- Claim C5: under an environment providing a signing secret,
`verifyNotifyAuthToken` first parses the token, then checks location,
session, binding, expiry and signature in this order, short-circuiting on
the first failure — each earlier failure forces `{ok:false}` for every
value of the later inputs (clock, HMAC) — every failing path yields the
same result value `.fail`, and at the API boundary any verification
failure is surfaced as the one generic 401 unauthorized response. -/
theorem verify_short_circuit_uniform (jp : List Nat → Option Json) (env : EnvM)
    (secret : JStr) (hsec : getSigningSecret env = some secret) :
    (∀ hmac now tok eL eS eB, parseNotifyAuthToken jp tok = none →
      verifyNotifyAuthToken jp hmac now tok eL eS eB env = .fail) ∧
    (∀ hmac now tok eL eS eB pt, parseNotifyAuthToken jp tok = some pt →
      pt.payload.loc ≠ eL →
      verifyNotifyAuthToken jp hmac now tok eL eS eB env = .fail) ∧
    (∀ hmac now tok eL eS eB pt, parseNotifyAuthToken jp tok = some pt →
      pt.payload.loc = eL → pt.payload.sid ≠ eS →
      verifyNotifyAuthToken jp hmac now tok eL eS eB env = .fail) ∧
    (∀ hmac now tok eL eS eB pt, parseNotifyAuthToken jp tok = some pt →
      pt.payload.loc = eL → pt.payload.sid = eS → pt.payload.bind ≠ eB →
      verifyNotifyAuthToken jp hmac now tok eL eS eB env = .fail) ∧
    (∀ hmac now tok eL eS eB pt, parseNotifyAuthToken jp tok = some pt →
      pt.payload.loc = eL → pt.payload.sid = eS → pt.payload.bind = eB →
      pt.payload.exp ≤ now →
      verifyNotifyAuthToken jp hmac now tok eL eS eB env = .fail) ∧
    (∀ hmac now tok eL eS eB pt, parseNotifyAuthToken jp tok = some pt →
      pt.payload.loc = eL → pt.payload.sid = eS → pt.payload.bind = eB →
      now < pt.payload.exp →
      verifyEncodedPayloadSignature hmac pt.payloadEncoded
        pt.signatureEncoded secret = false →
      verifyNotifyAuthToken jp hmac now tok eL eS eB env = .fail) ∧
    (∀ hmac now tok eL eS eB pt, parseNotifyAuthToken jp tok = some pt →
      pt.payload.loc = eL → pt.payload.sid = eS → pt.payload.bind = eB →
      now < pt.payload.exp →
      verifyEncodedPayloadSignature hmac pt.payloadEncoded
        pt.signatureEncoded secret = true →
      verifyNotifyAuthToken jp hmac now tok eL eS eB env = .ok pt.payload) ∧
    (∀ uo dUC hmac sha req now catalog pushover st o bks nb,
      getAllowedOriginForRequest uo req env = some o →
      violatesFetchMetadataPolicy req = false →
      (env.pushoverAppToken.isEmpty || env.pushoverUserKey.isEmpty) = false →
      isRateLimited (getClientIp req) (getRateLimitPerMinute env) now
        st.buckets = (false, bks) →
      parseNotifyBody jp req = .ok nb →
      validateKnownLocationToken nb.locationToken env catalog = .ok →
      isSafeTokenComponent
        (trimJ ((getCookieValue dUC req SESSION_COOKIE_NAME).getD []))
        MAX_SESSION_ID_LENGTH = true →
      verifyNotifyAuthToken jp hmac now nb.authToken nb.locationToken
        (trimJ ((getCookieValue dUC req SESSION_COOKIE_NAME).getD []))
        (getClientBinding sha req) env = .fail →
      (onRequestPost uo dUC jp hmac sha req env now catalog pushover st).resp =
        ⟨401, errBody (jstr "Unauthorized request")⟩) := by
  refine ⟨?_, ?_, ?_, ?_, ?_, ?_, ?_, ?_⟩
  · intro hmac now tok eL eS eB hparse
    exact verifyNotifyAuthToken_parse_none jp hmac now tok eL eS eB env hparse
  · intro hmac now tok eL eS eB pt hparse hl
    rw [verifyNotifyAuthToken_char jp hmac now tok eL eS eB env secret pt hsec hparse,
      if_pos hl]
  · intro hmac now tok eL eS eB pt hparse hl hs
    rw [verifyNotifyAuthToken_char jp hmac now tok eL eS eB env secret pt hsec hparse,
      if_neg (not_not_intro hl), if_pos hs]
  · intro hmac now tok eL eS eB pt hparse hl hs hb
    rw [verifyNotifyAuthToken_char jp hmac now tok eL eS eB env secret pt hsec hparse,
      if_neg (not_not_intro hl), if_neg (not_not_intro hs), if_pos hb]
  · intro hmac now tok eL eS eB pt hparse hl hs hb hexp
    rw [verifyNotifyAuthToken_char jp hmac now tok eL eS eB env secret pt hsec hparse,
      if_neg (not_not_intro hl), if_neg (not_not_intro hs), if_neg (not_not_intro hb),
      if_pos hexp]
  · intro hmac now tok eL eS eB pt hparse hl hs hb hexp hsig
    rw [verifyNotifyAuthToken_char jp hmac now tok eL eS eB env secret pt hsec hparse,
      if_neg (not_not_intro hl), if_neg (not_not_intro hs), if_neg (not_not_intro hb),
      if_neg (not_le.mpr hexp), if_pos hsig]
  · intro hmac now tok eL eS eB pt hparse hl hs hb hexp hsig
    rw [verifyNotifyAuthToken_char jp hmac now tok eL eS eB env secret pt hsec hparse,
      if_neg (not_not_intro hl), if_neg (not_not_intro hs), if_neg (not_not_intro hb),
      if_neg (not_le.mpr hexp), if_neg (by rw [hsig]; simp)]
  · intro uo dUC hmac sha req now catalog pushover st o bks nb
      ho hmeta hcreds hrl hbody hloc hsid hverify
    rw [onRequestPost_unauthorized uo dUC jp hmac sha req env now catalog pushover st
      o secret bks nb ho hmeta hcreds hsec hrl hbody hloc hsid hverify]

set_option maxRecDepth 200000 in
/-- Witness for C5: the environment-derived secret, an unparseable token
failing verification, and the boundary shape at a concrete instance. -/
theorem verify_short_circuit_uniform_witness :
    getSigningSecret wEnv = some (jstr "t:u") ∧
    parseNotifyAuthToken wJp [] = none ∧
    verifyNotifyAuthToken wJp wHmac 0 [] wLoc wSid wBind wEnv = .fail :=
  ⟨by decide, by decide,
    (verify_short_circuit_uniform wJp wEnv (jstr "t:u") (by decide)).1
      wHmac 0 [] wLoc wSid wBind (by decide)⟩

/-- Claim C4: a POST passing every gate at clock `n1` is answered 200 (on
a successful provider call), its token id is remembered with the token's
expiry, and a second submission of the identical, still unexpired token at
any clock `n2 ≥ n1` is answered with the distinct 409 replay response —
not the generic 401 unauthorized outcome. -/
theorem replay_second_submission
    (uo dUC : JStr → Option JStr) (jp : List Nat → Option Json)
    (hmac : JStr → JStr → List Nat) (sha : JStr → List Nat)
    (req : ReqM) (env : EnvM) (n1 n2 : Int) (catalog : Option (List JStr))
    (st0 : SrvState) (o : JStr) (bks1 bks2 : RLState) (nb : NotifyBodyM)
    (payload : NotifyAuthPayload) (used1 : UsedIds)
    (status1 : Int) (body1 : JStr) (pushover2 : FetchOut)
    (ho : getAllowedOriginForRequest uo req env = some o)
    (hmeta : violatesFetchMetadataPolicy req = false)
    (hcreds : (env.pushoverAppToken.isEmpty || env.pushoverUserKey.isEmpty) = false)
    (hrl1 : isRateLimited (getClientIp req) (getRateLimitPerMinute env) n1
      st0.buckets = (false, bks1))
    (hbody : parseNotifyBody jp req = .ok nb)
    (hloc : validateKnownLocationToken nb.locationToken env catalog = .ok)
    (hsid : isSafeTokenComponent
      (trimJ ((getCookieValue dUC req SESSION_COOKIE_NAME).getD []))
      MAX_SESSION_ID_LENGTH = true)
    (hverify : verifyNotifyAuthToken jp hmac n1 nb.authToken nb.locationToken
      (trimJ ((getCookieValue dUC req SESSION_COOKIE_NAME).getD []))
      (getClientBinding sha req) env = .ok payload)
    (hreplay : isAuthTokenReplay payload.jti n1
      (cleanupUsedAuthTokenIds n1 st0.usedIds) = (false, used1))
    (hok1 : respOk status1 = true)
    (hn1 : 0 ≤ n1) (hn12 : n1 ≤ n2) (hexp2 : n2 < payload.exp)
    (hrl2 : isRateLimited (getClientIp req) (getRateLimitPerMinute env) n2
      bks1 = (false, bks2)) :
    (onRequestPost uo dUC jp hmac sha req env n1 catalog
      (.resp status1 body1) st0).resp.status = 200 ∧
    alGet (onRequestPost uo dUC jp hmac sha req env n1 catalog
      (.resp status1 body1) st0).st.usedIds payload.jti = some payload.exp ∧
    (onRequestPost uo dUC jp hmac sha req env n2 catalog pushover2
      (onRequestPost uo dUC jp hmac sha req env n1 catalog
        (.resp status1 body1) st0).st).resp =
      ⟨409, errBody (jstr "Replay detected. Request a new auth token.")⟩ ∧
    (onRequestPost uo dUC jp hmac sha req env n2 catalog pushover2
      (onRequestPost uo dUC jp hmac sha req env n1 catalog
        (.resp status1 body1) st0).st).resp.status ≠ 401 := by
  obtain ⟨secret, -, hsec, -⟩ :=
    verifyNotifyAuthToken_ok_inv jp hmac n1 nb.authToken nb.locationToken
      (trimJ ((getCookieValue dUC req SESSION_COOKIE_NAME).getD []))
      (getClientBinding sha req) env payload hverify
  have hrun1 : onRequestPost uo dUC jp hmac sha req env n1 catalog
      (.resp status1 body1) st0 =
      dispatchTail (.resp status1 body1)
        ⟨bks1, rememberUsedAuthToken payload.jti payload.exp n1 used1⟩ :=
    onRequestPost_authorized uo dUC jp hmac sha req env n1 catalog
      (.resp status1 body1) st0 o secret bks1 nb payload used1
      ho hmeta hcreds hsec hrl1 hbody hloc hsid hverify hreplay
  have hd1 : dispatchTail (.resp status1 body1)
      ⟨bks1, rememberUsedAuthToken payload.jti payload.exp n1 used1⟩ =
      ⟨⟨200, okBody⟩,
        ⟨bks1, rememberUsedAuthToken payload.jti payload.exp n1 used1⟩, []⟩ :=
    dispatchTail_resp_ok status1 body1 _ hok1
  have hst1 : (onRequestPost uo dUC jp hmac sha req env n1 catalog
      (.resp status1 body1) st0).st =
      ⟨bks1, rememberUsedAuthToken payload.jti payload.exp n1 used1⟩ := by
    rw [hrun1, hd1]
  have hexpn1 : n1 < payload.exp := lt_of_le_of_lt hn12 hexp2
  have hrem : alGet (rememberUsedAuthToken payload.jti payload.exp n1 used1)
      payload.jti = some payload.exp :=
    alGet_remember_self payload.jti payload.exp n1 used1 (not_le.mpr hexpn1)
  have hver2 : verifyNotifyAuthToken jp hmac n2 nb.authToken nb.locationToken
      (trimJ ((getCookieValue dUC req SESSION_COOKIE_NAME).getD []))
      (getClientBinding sha req) env = .ok payload :=
    verifyNotifyAuthToken_time_shift jp hmac n1 n2 nb.authToken nb.locationToken
      (trimJ ((getCookieValue dUC req SESSION_COOKIE_NAME).getD []))
      (getClientBinding sha req) env payload hverify hexp2
  have hget2 : alGet (cleanupUsedAuthTokenIds n2
      (rememberUsedAuthToken payload.jti payload.exp n1 used1)) payload.jti =
      some payload.exp :=
    alGet_cleanup (rememberUsedAuthToken payload.jti payload.exp n1 used1)
      payload.jti payload.exp n2 hrem (not_le.mpr hexp2)
  have h0 : payload.exp ≠ 0 := by omega
  have hrep2 : isAuthTokenReplay payload.jti n2
      (cleanupUsedAuthTokenIds n2
        (rememberUsedAuthToken payload.jti payload.exp n1 used1)) =
      (true, cleanupUsedAuthTokenIds n2
        (rememberUsedAuthToken payload.jti payload.exp n1 used1)) :=
    isAuthTokenReplay_hit payload.jti n2 payload.exp
      (cleanupUsedAuthTokenIds n2
        (rememberUsedAuthToken payload.jti payload.exp n1 used1))
      hget2 h0 (not_le.mpr hexp2)
  have hrun2 : onRequestPost uo dUC jp hmac sha req env n2 catalog pushover2
      (⟨bks1, rememberUsedAuthToken payload.jti payload.exp n1 used1⟩ : SrvState) =
      ⟨⟨409, errBody (jstr "Replay detected. Request a new auth token.")⟩,
        ⟨bks2, cleanupUsedAuthTokenIds n2
          (rememberUsedAuthToken payload.jti payload.exp n1 used1)⟩, []⟩ :=
    onRequestPost_replay uo dUC jp hmac sha req env n2 catalog pushover2
      (⟨bks1, rememberUsedAuthToken payload.jti payload.exp n1 used1⟩ : SrvState)
      o secret bks2 nb payload
      (cleanupUsedAuthTokenIds n2
        (rememberUsedAuthToken payload.jti payload.exp n1 used1))
      ho hmeta hcreds hsec hrl2 hbody hloc hsid hver2 hrep2
  refine ⟨?_, ?_, ?_, ?_⟩
  · rw [hrun1, hd1]
  · rw [hst1]
    exact hrem
  · rw [hst1, hrun2]
  · rw [hst1, hrun2]
    show (409 : Int) ≠ 401
    decide

set_option maxRecDepth 1000000 in
/-- Witness for C4: the same concrete token submitted twice — the second
submission is answered 409 with the replay message. -/
theorem replay_second_submission_witness :
    getAllowedOriginForRequest wUo wReq wEnv = some (jstr "http://o") ∧
    violatesFetchMetadataPolicy wReq = false ∧
    parseNotifyBody wJp2 wReq = .ok wNb ∧
    validateKnownLocationToken wNb.locationToken wEnv wCat = .ok ∧
    verifyNotifyAuthToken wJp2 wHmac 1000 wNb.authToken wNb.locationToken
      (trimJ ((getCookieValue wDuc wReq SESSION_COOKIE_NAME).getD []))
      (getClientBinding wSha wReq) wEnv = .ok wPayload2 ∧
    isAuthTokenReplay wPayload2.jti 1000
      (cleanupUsedAuthTokenIds 1000 wSt0.usedIds) = (false, []) ∧
    (2000 : Int) < wPayload2.exp ∧
    (onRequestPost wUo wDuc wJp2 wHmac wSha wReq wEnv 2000 wCat (.resp 200 [])
      (onRequestPost wUo wDuc wJp2 wHmac wSha wReq wEnv 1000 wCat (.resp 200 [])
        wSt0).st).resp =
      ⟨409, errBody (jstr "Replay detected. Request a new auth token.")⟩ :=
  ⟨by decide, by decide, by decide, by decide, by decide, by decide, by decide,
    (replay_second_submission wUo wDuc wJp2 wHmac wSha wReq wEnv 1000 2000 wCat wSt0
      (jstr "http://o") [(jstr "1.2.3.4", ⟨1, 1000⟩)] [(jstr "1.2.3.4", ⟨2, 1000⟩)]
      wNb wPayload2 [] 200 [] (.resp 200 [])
      (by decide) (by decide) (by decide) (by decide) (by decide) (by decide)
      (by decide) (by decide) (by decide) (by decide) (by decide) (by decide)
      (by decide) (by decide)).2.2.1⟩

/-- Claim C9: for an otherwise-authorized POST, an aborted provider call
is answered 504; any other thrown transport error is answered 502 with the
failure logged; a non-2xx provider response is answered a constant 502 —
the provider status and truncated body are logged but never included in
the caller's response body. -/
theorem dispatcher_error_mapping
    (uo dUC : JStr → Option JStr) (jp : List Nat → Option Json)
    (hmac : JStr → JStr → List Nat) (sha : JStr → List Nat)
    (req : ReqM) (env : EnvM) (now : Int) (catalog : Option (List JStr))
    (st : SrvState) (o secret : JStr) (bks : RLState) (nb : NotifyBodyM)
    (payload : NotifyAuthPayload) (used : UsedIds)
    (ho : getAllowedOriginForRequest uo req env = some o)
    (hmeta : violatesFetchMetadataPolicy req = false)
    (hcreds : (env.pushoverAppToken.isEmpty || env.pushoverUserKey.isEmpty) = false)
    (hsec : getSigningSecret env = some secret)
    (hrl : isRateLimited (getClientIp req) (getRateLimitPerMinute env) now
      st.buckets = (false, bks))
    (hbody : parseNotifyBody jp req = .ok nb)
    (hloc : validateKnownLocationToken nb.locationToken env catalog = .ok)
    (hsid : isSafeTokenComponent
      (trimJ ((getCookieValue dUC req SESSION_COOKIE_NAME).getD []))
      MAX_SESSION_ID_LENGTH = true)
    (hverify : verifyNotifyAuthToken jp hmac now nb.authToken nb.locationToken
      (trimJ ((getCookieValue dUC req SESSION_COOKIE_NAME).getD []))
      (getClientBinding sha req) env = .ok payload)
    (hreplay : isAuthTokenReplay payload.jti now
      (cleanupUsedAuthTokenIds now st.usedIds) = (false, used)) :
    (∀ e, isAbortError e = true →
      (onRequestPost uo dUC jp hmac sha req env now catalog (.thrown e) st).resp =
        ⟨504, errBody (jstr "Notification timeout. Please try again.")⟩) ∧
    (∀ e, isAbortError e = false →
      (onRequestPost uo dUC jp hmac sha req env now catalog (.thrown e) st).resp =
        ⟨502, errBody (jstr "Notification request failed. Please try again.")⟩ ∧
      (onRequestPost uo dUC jp hmac sha req env now catalog (.thrown e) st).logs =
        [.pushoverRequestFailed]) ∧
    (∀ status providerBody, respOk status = false →
      (onRequestPost uo dUC jp hmac sha req env now catalog
        (.resp status providerBody) st).resp =
        ⟨502, errBody (jstr "Notification provider rejected request.")⟩ ∧
      (onRequestPost uo dUC jp hmac sha req env now catalog
        (.resp status providerBody) st).logs =
        [.pushoverRejected status (takeJ 500 providerBody)]) := by
  refine ⟨?_, ?_, ?_⟩
  · intro e he
    rw [onRequestPost_authorized uo dUC jp hmac sha req env now catalog (.thrown e) st
      o secret bks nb payload used ho hmeta hcreds hsec hrl hbody hloc hsid hverify
      hreplay, dispatchTail_abort e _ he]
  · intro e he
    rw [onRequestPost_authorized uo dUC jp hmac sha req env now catalog (.thrown e) st
      o secret bks nb payload used ho hmeta hcreds hsec hrl hbody hloc hsid hverify
      hreplay, dispatchTail_failed e _ he]
    exact ⟨rfl, rfl⟩
  · intro status providerBody hstatus
    rw [onRequestPost_authorized uo dUC jp hmac sha req env now catalog
      (.resp status providerBody) st
      o secret bks nb payload used ho hmeta hcreds hsec hrl hbody hloc hsid hverify
      hreplay, dispatchTail_resp_bad status providerBody _ hstatus]
    exact ⟨rfl, rfl⟩

set_option maxRecDepth 1000000 in
/-- Witness for C9: an authorized request whose provider call is aborted
is answered 504. -/
theorem dispatcher_error_mapping_witness :
    getSigningSecret wEnv = some (jstr "t:u") ∧
    verifyNotifyAuthToken wJp2 wHmac 1000 wNb.authToken wNb.locationToken
      (trimJ ((getCookieValue wDuc wReq SESSION_COOKIE_NAME).getD []))
      (getClientBinding wSha wReq) wEnv = .ok wPayload2 ∧
    isAbortError (.objWithName (jstr "AbortError")) = true ∧
    (onRequestPost wUo wDuc wJp2 wHmac wSha wReq wEnv 1000 wCat
      (.thrown (.objWithName (jstr "AbortError"))) wSt0).resp =
      ⟨504, errBody (jstr "Notification timeout. Please try again.")⟩ :=
  ⟨by decide, by decide, by decide,
    (dispatcher_error_mapping wUo wDuc wJp2 wHmac wSha wReq wEnv 1000 wCat wSt0
      (jstr "http://o") (jstr "t:u") [(jstr "1.2.3.4", ⟨1, 1000⟩)] wNb wPayload2 []
      (by decide) (by decide) (by decide) (by decide) (by decide) (by decide)
      (by decide) (by decide) (by decide) (by decide)).1
      (.objWithName (jstr "AbortError")) (by decide)⟩

end EzOrder
